import Mathlib

/-!
# Community event system — shallow embedding and verification

Shallow embedding of the entitlement-ledger operations of the
community-event-system repository, with proofs about the spec claims.

Two generations of the ledger appear in the source and are both embedded:

* the `Plates` namespace follows `src/lib/actions.ts` (tables `families`,
  `servings`, `audit_logs` of `src/db/schema.sql`) together with the
  directory-sync endpoint `app/api/sync/route.ts`;
* the `Coupons` namespace follows the `event_entries` action module
  (tables `events`, `event_entries`, `audit_logs`).

The Supabase store is modelled as explicit record state; each server
action becomes a pure function from state to result and new state.
Timestamps are modelled as natural numbers supplied by the caller as the
parameter `now`.  Audit-insert failure is modelled by the flag `auditOk`:
`logAudit` swallows the insert error, so a failed insert only drops the
entry.
-/

/-- A scalar inside a jsonb before/after audit payload: the actions only
ever store numbers and strings there. -/
inductive AVal where
  | num (n : Int)
  | str (s : String)
deriving DecidableEq

/-- A jsonb before/after audit payload: a flat object, modelled as an
association list. -/
def APayload := List (String × AVal)

instance : DecidableEq APayload := by
  unfold APayload
  infer_instance

namespace Plates

/-- Role of the caller, `volunteer` or `admin` (`UserRole` in actions.ts). -/
inductive UserRole where
  | volunteer
  | admin
deriving DecidableEq

/-- A row of the `families` table as read by actions.ts
(`family_id, family_name, head_name, phone, members_count, notes`). -/
structure FamilyR where
  family_id : String
  family_name : String
  head_name : String
  phone : String
  members_count : Nat
  notes : Option String
deriving DecidableEq

/-- A row of the `servings` table (`src/db/schema.sql`): one per
(event, family), `plates_used >= 0` by the column check, `checked_in_at`
nullable. -/
structure Serving where
  id : Nat
  event_name : String
  family_id : String
  plates_used : Nat
  checked_in_at : Option Nat
  last_updated : Nat
deriving DecidableEq

/-- A row of the `audit_logs` table.  The jsonb before/after payloads
only ever hold flat objects of scalar fields in actions.ts, so they are
modelled as `APayload` association lists. -/
structure AuditLog where
  actor_role : String
  event_name : String
  family_id : Option String
  action_type : String
  before_value : Option APayload
  after_value : Option APayload
  details : String
  station_id : Option String
deriving DecidableEq

/-- The backing store seen by actions.ts: the three tables plus the id
sequence for `servings` inserts. -/
structure DB where
  families : List FamilyR
  servings : List Serving
  audit_logs : List AuditLog
  nextServingId : Nat
deriving DecidableEq

/-- Result shape shared by the actions: `success`, optional symbolic
`error`, optional `message`, optional `remaining` (servePlates only). -/
structure ActionResult where
  success : Bool
  error : Option String
  message : Option String
  remaining : Option Int
deriving DecidableEq

/-- `logAudit` of actions.ts: inserts one `audit_logs` row; an insert
error is only logged to the console, so a failing insert (modelled by
`auditOk = false`) drops the entry and nothing else. -/
def logAudit (auditOk : Bool) (e : AuditLog) (db : DB) : DB :=
  if auditOk then { db with audit_logs := db.audit_logs ++ [e] } else db

/-- `families.select().eq(family_id).single()` — first row with this id. -/
def findFamily (db : DB) (familyId : String) : Option FamilyR :=
  db.families.find? (fun f => f.family_id == familyId)

/-- `servings.select().eq(event_name).eq(family_id)` with the
`UNIQUE(event_name, family_id)` constraint — first matching row. -/
def findServing (db : DB) (eventName familyId : String) : Option Serving :=
  db.servings.find? (fun s => s.event_name == eventName && s.family_id == familyId)

/-- Serialization of a role for the `actor_role` column. -/
def roleName : UserRole → String
  | .volunteer => "volunteer"
  | .admin => "admin"

/-- `checkInFamily` of actions.ts: family must exist; rejected with
`ALREADY_CHECKED_IN` when a check-in timestamp is already present;
otherwise the servings row is created (with `plates_used = 0`) or, if a
row without a timestamp exists, stamped with the check-in time; one
CHECK_IN audit entry follows on success. -/
def checkInFamily (role : UserRole) (eventName familyId : String)
    (stationId : Option String) (now : Nat) (auditOk : Bool) (db : DB) :
    ActionResult × DB :=
  match findFamily db familyId with
  | none =>
      (⟨false, some "NOT_FOUND", some "Family not found in database.", none⟩, db)
  | some family =>
      match findServing db eventName familyId with
      | some existing =>
          if existing.checked_in_at.isSome then
            (⟨false, some "ALREADY_CHECKED_IN", some "Family is already checked in.", none⟩, db)
          else
            let db1 : DB := { db with
              servings := db.servings.map (fun s =>
                if s.id == existing.id then
                  { s with checked_in_at := some now, last_updated := now }
                else s) }
            let db2 := logAudit auditOk
              ⟨roleName role, eventName, some familyId, "CHECK_IN", none,
                some [("members_count", .num family.members_count), ("checked_in_at", .num now)],
                "Check-in recorded.", stationId⟩ db1
            (⟨true, none, some "Checked in successfully.", none⟩, db2)
      | none =>
          let row : Serving :=
            ⟨db.nextServingId, eventName, familyId, 0, some now, now⟩
          let db1 : DB := { db with
            servings := db.servings ++ [row],
            nextServingId := db.nextServingId + 1 }
          let db2 := logAudit auditOk
            ⟨roleName role, eventName, some familyId, "CHECK_IN", none,
              some [("members_count", .num family.members_count), ("checked_in_at", .num now)],
              "Check-in recorded.", stationId⟩ db1
          (⟨true, none, some "Checked in successfully.", none⟩, db2)

/-- `servePlates` of actions.ts, split over a read state and a write
state so the conditional update is visible: all validation reads
`dbRead`; the guarded update (`eq(id) . eq(plates_used, current_used)`)
runs against `dbWrite`, which a concurrent writer may have changed in
between.  `quantity` is the raw request number; the action coerces it by
`Math.max(0, Math.floor(quantity))` before touching storage. -/
def servePlatesRW (role : UserRole) (eventName familyId : String) (quantity : ℚ)
    (stationId : Option String) (now : Nat) (auditOk : Bool)
    (dbRead dbWrite : DB) : ActionResult × DB :=
  let q : Nat := (Rat.floor quantity).toNat
  if q = 0 then
    (⟨false, some "INVALID", some "Quantity must be at least 1.", none⟩, dbWrite)
  else
    match findFamily dbRead familyId with
    | none => (⟨false, some "NOT_FOUND", some "Family not found.", none⟩, dbWrite)
    | some family =>
        match findServing dbRead eventName familyId with
        | none =>
            (⟨false, some "NOT_CHECKED_IN", some "Family has not checked in yet.", none⟩, dbWrite)
        | some serving =>
            if serving.checked_in_at.isNone then
              (⟨false, some "NOT_CHECKED_IN", some "Family has not checked in yet.", none⟩, dbWrite)
            else
              let plates_entitled := family.members_count
              let current_used := serving.plates_used
              let plates_remaining : Int := (plates_entitled : Int) - (current_used : Int)
              if (q : Int) > plates_remaining then
                (⟨false, some "INSUFFICIENT_PLATES", some "Not enough plates remaining.", none⟩, dbWrite)
              else
                let new_used := current_used + q
                match dbWrite.servings.find?
                    (fun s => s.id == serving.id && s.plates_used == current_used) with
                | none =>
                    (⟨false, some "CONCURRENCY", some "Another device just served plates.", none⟩, dbWrite)
                | some _ =>
                    let db1 : DB := { dbWrite with
                      servings := dbWrite.servings.map (fun s =>
                        if s.id == serving.id && s.plates_used == current_used then
                          { s with plates_used := new_used, last_updated := now }
                        else s) }
                    let db2 := logAudit auditOk
                      ⟨roleName role, eventName, some familyId, "SERVE",
                        some [("plates_used", .num current_used)],
                        some [("plates_used", .num new_used)],
                        "Served plates.", stationId⟩ db1
                    (⟨true, none, some "Served plates.",
                        some ((plates_entitled : Int) - (new_used : Int))⟩, db2)

/-- `servePlates` as a single request: read and write see the same
state (no interference). -/
def servePlates (role : UserRole) (eventName familyId : String) (quantity : ℚ)
    (stationId : Option String) (now : Nat) (auditOk : Bool) (db : DB) :
    ActionResult × DB :=
  servePlatesRW role eventName familyId quantity stationId now auditOk db db

/-- `adjustPlates` of actions.ts: admin only; sets
`plates_used := Math.max(0, plates_used + adjustment)` on the (event,
family) servings row, unconditionally (no compare-and-swap), then logs
an ADJUST entry. -/
def adjustPlates (role : UserRole) (eventName familyId : String) (adjustment : Int)
    (reason : String) (stationId : Option String) (now : Nat) (auditOk : Bool)
    (db : DB) : ActionResult × DB :=
  if role ≠ UserRole.admin then
    (⟨false, none, some "Admin access required.", none⟩, db)
  else
    match findServing db eventName familyId with
    | none => (⟨false, none, some "No serving record found for this family.", none⟩, db)
    | some serving =>
        let newPlatesUsed : Nat := ((serving.plates_used : Int) + adjustment).toNat
        let db1 : DB := { db with
          servings := db.servings.map (fun s =>
            if s.id == serving.id then
              { s with plates_used := newPlatesUsed, last_updated := now }
            else s) }
        let db2 := logAudit auditOk
          ⟨"admin", eventName, some familyId, "ADJUST",
            some [("plates_used", .num serving.plates_used)],
            some [("plates_used", .num newPlatesUsed)],
            reason, stationId⟩ db1
        (⟨true, none, some "Plates adjusted successfully.", none⟩, db2)

/-- `resetEvent` of actions.ts: counts then deletes every servings row
of the event and logs one RESET entry with the counts. -/
def resetEvent (eventName : String) (stationId : Option String) (auditOk : Bool)
    (db : DB) : ActionResult × DB :=
  let cnt := (db.servings.filter (fun s => s.event_name == eventName)).length
  let db1 : DB := { db with
    servings := db.servings.filter (fun s => !(s.event_name == eventName)) }
  let db2 := logAudit auditOk
    ⟨"admin", eventName, none, "RESET",
      some [("servings_count", .num cnt)],
      some [("servings_count", .num 0)],
      "Reset event.", stationId⟩ db1
  (⟨true, none, some "Reset complete.", none⟩, db2)

/-- A family row as fetched from the sheet by the sync endpoint
(`app/api/sync/route.ts` maps `family_id, family_name, head_name,
phone, members_count, notes`). -/
structure SheetFam where
  family_id : String
  family_name : String
  head_name : String
  phone : String
  members_count : Nat
  notes : Option String
deriving DecidableEq

/-- Conversion of a fetched sheet row into a `families` insert. -/
def SheetFam.toFamily (f : SheetFam) : FamilyR :=
  ⟨f.family_id, f.family_name, f.head_name, f.phone, f.members_count, f.notes⟩

/-- Response of the sync endpoint: an HTTP error status or success with
the synced count. -/
inductive SyncResp where
  | httpError (status : Nat) (message : String)
  | ok (count : Nat)
deriving DecidableEq

/-- Duplicate `family_id` detection of the sync endpoint (ids whose
count in the fetched batch exceeds one). -/
def hasDuplicateIds (input : List SheetFam) : Bool :=
  input.any (fun f =>
    (input.filter (fun g => g.family_id == f.family_id)).length > 1)

/-- The ids removed by the sync delete step
(`delete().neq(family_id, empty-string)` deletes every row whose id is
not the empty string). -/
def deletedFamilyIds (db : DB) : List String :=
  (db.families.filter (fun f => !(f.family_id == ""))).map (fun f => f.family_id)

/-- `ON DELETE SET NULL` on `audit_logs.family_id`: a row referencing a
deleted family keeps everything but its family reference. -/
def nullifyDeleted (deleted : List String) (a : AuditLog) : AuditLog :=
  match a.family_id with
  | some fid => if deleted.contains fid then { a with family_id := none } else a
  | none => a

/-- `POST /api/sync` of `app/api/sync/route.ts`: atomic replace of the
`families` table.  `input` and `sheetErrors` stand for the result of
`fetchFamiliesFromSheet()`.  After the validation gates the endpoint
deletes every family with `family_id != empty-string`; by
`src/db/schema.sql` this cascades (`ON DELETE CASCADE`) to every
`servings` row of a deleted family and nulls (`ON DELETE SET NULL`) the
`family_id` of every `audit_logs` row referencing one; the fetched
families are then inserted and one SYNC audit entry appended. -/
def syncPOST (input : List SheetFam) (sheetErrors : List String)
    (stationId : Option String) (db : DB) : SyncResp × DB :=
  if sheetErrors.length > 0 ∧ input.length = 0 then
    (.httpError 500 "Failed to fetch from Google Sheets", db)
  else if input.length = 0 then
    (.httpError 400 "No valid families found in the sheet", db)
  else if hasDuplicateIds input then
    (.httpError 400 "Duplicate family_id values found in sheet", db)
  else
    let beforeCount := db.families.length
    let deletedIds := deletedFamilyIds db
    let keptFamilies := db.families.filter (fun f => f.family_id == "")
    let servings1 := db.servings.filter (fun s => !(deletedIds.contains s.family_id))
    let audit1 := db.audit_logs.map (nullifyDeleted deletedIds)
    let families1 := keptFamilies ++ input.map SheetFam.toFamily
    let entry : AuditLog :=
      ⟨"admin", "SYSTEM", none, "SYNC",
        some [("count", .num beforeCount)],
        some [("count", .num input.length), ("errors", .num sheetErrors.length)],
        "Synced families from Google Sheets.", stationId⟩
    let db1 : DB :=
      { families := families1, servings := servings1,
        audit_logs := audit1 ++ [entry], nextServingId := db.nextServingId }
    (.ok input.length, db1)

end Plates

namespace Coupons

open Plates (UserRole roleName)

/-- Lifecycle status of an `event_entries` row
(`ActiveEntryStatus` in the coupons action module). -/
inductive EntryStatus where
  | ACTIVE
  | FOOD_EXHAUSTED
  | CLOSED
deriving DecidableEq

/-- A row of the `events` table. -/
structure EventR where
  id : Nat
  name : String
  coupons_per_member : Int
  guest_coupon_price : Int
deriving DecidableEq

/-- A row of the `event_entries` table, one per (event, family), unique
on that pair.  Plates used so far equal
`total_coupons - remaining_coupons`. -/
structure Entry where
  id : Nat
  event_id : Nat
  family_id : String
  members_present : Nat
  guest_count : Nat
  member_coupons : Nat
  guest_coupons : Nat
  total_coupons : Nat
  remaining_coupons : Nat
  status : EntryStatus
  created_at : Nat
deriving DecidableEq

/-- A row of the coupons-era `audit_logs` table. -/
structure CAudit where
  actor_role : String
  event_id : Nat
  family_id : String
  action_type : String
  before_value : Option APayload
  after_value : Option APayload
  details : String
deriving DecidableEq

/-- The backing store seen by the coupons action module. -/
structure CDB where
  events : List EventR
  entries : List Entry
  audit_logs : List CAudit
  nextEventId : Nat
  nextEntryId : Nat
deriving DecidableEq

/-- `logAudit` of the coupons module: append one row; an insert error is
only logged, modelled by `auditOk = false` dropping the entry. -/
def clogAudit (auditOk : Bool) (e : CAudit) (cdb : CDB) : CDB :=
  if auditOk then { cdb with audit_logs := cdb.audit_logs ++ [e] } else cdb

/-- `getOrCreateEventByName`: look the event up by name, inserting it
first when absent. -/
def getOrCreateEventByName (name : String) (coupons_per_member guest_coupon_price : Int)
    (cdb : CDB) : EventR × CDB :=
  match cdb.events.find? (fun e => e.name == name) with
  | some e => (e, cdb)
  | none =>
      let e : EventR := ⟨cdb.nextEventId, name, coupons_per_member, guest_coupon_price⟩
      (e, { cdb with events := cdb.events ++ [e], nextEventId := cdb.nextEventId + 1 })

/-- Result of the coupons `checkInFamily`: the new entry id, or the
duplicate-entry rejection raised by the unique (event, family)
constraint (Postgres error 23505). -/
inductive CheckInResp where
  | ok (id : Nat)
  | dup
deriving DecidableEq

/-- `checkInFamily` of the coupons module: clamp `members_present` and
`guest_count` to `>= 0`, get or create the event, insert the entry with
`remaining_coupons = total_coupons = members + guests` and status ACTIVE
when the total is positive (else FOOD_EXHAUSTED); a violation of the
unique (event, family) constraint is returned as `DUPLICATE_ENTRY`; one
CHECK_IN audit entry follows a successful insert. -/
def checkInFamily (role : UserRole) (eventName familyId : String)
    (members_present guest_count : Int) (coupons_per_member guest_coupon_price : Int)
    (now : Nat) (auditOk : Bool) (cdb : CDB) : CheckInResp × CDB :=
  let members : Nat := members_present.toNat
  let guests : Nat := guest_count.toNat
  let ec := getOrCreateEventByName eventName coupons_per_member guest_coupon_price cdb
  let event := ec.1
  let cdb0 := ec.2
  let member_coupons := members
  let guest_coupons := guests
  let total_coupons := member_coupons + guest_coupons
  if cdb0.entries.any (fun en => en.event_id == event.id && en.family_id == familyId) then
    (.dup, cdb0)
  else
    let en : Entry :=
      ⟨cdb0.nextEntryId, event.id, familyId, members, guests, member_coupons,
        guest_coupons, total_coupons, total_coupons,
        if total_coupons > 0 then .ACTIVE else .FOOD_EXHAUSTED, now⟩
    let cdb1 : CDB := { cdb0 with
      entries := cdb0.entries ++ [en], nextEntryId := cdb0.nextEntryId + 1 }
    let cdb2 := clogAudit auditOk
      ⟨roleName role, event.id, familyId, "CHECK_IN", none,
        some [("members", .num members), ("guests", .num guests),
          ("total_coupons", .num total_coupons)],
        "Checked in locally."⟩ cdb1
    (.ok en.id, cdb2)

/-- Result of `deleteEntry`, `adjustCoupons` and `updateEntryStatus`:
`success` plus the user-facing message. -/
structure SimpleResult where
  success : Bool
  message : String
deriving DecidableEq

/-- `deleteEntry` (undo check-in): a non-admin may delete only when
`remaining_coupons = total_coupons` (nothing served yet); otherwise the
row is removed and one UNDO_CHECK_IN audit entry appended. -/
def deleteEntry (role : UserRole) (entryId : Nat) (auditOk : Bool) (cdb : CDB) :
    SimpleResult × CDB :=
  match cdb.entries.find? (fun e => e.id == entryId) with
  | none => (⟨false, "Entry not found."⟩, cdb)
  | some entry =>
      if role ≠ UserRole.admin ∧ entry.remaining_coupons ≠ entry.total_coupons then
        (⟨false, "Cannot undo: Food already served! Please contact Admin."⟩, cdb)
      else
        let cdb1 : CDB := { cdb with
          entries := cdb.entries.filter (fun e => !(e.id == entryId)) }
        let cdb2 := clogAudit auditOk
          ⟨roleName role, entry.event_id, entry.family_id, "UNDO_CHECK_IN",
            some [("id", .num entry.id), ("remaining", .num entry.remaining_coupons)],
            none, "Check-in reversed."⟩ cdb1
        (⟨true, "Check-in reversed successfully."⟩, cdb2)

/-- Result of `consumeCoupons`. -/
structure ConsumeResult where
  success : Bool
  error : Option String
  message : Option String
deriving DecidableEq

/-- `consumeCoupons`, split over a read state and a write state so the
conditional update is visible: the fetch and all checks read `cdbRead`;
the guarded update (`eq(id) . eq(remaining_coupons, fetched value)`)
runs against `cdbWrite`.  The deduction is `Math.max(0, quantity)`. -/
def consumeCouponsRW (role : UserRole) (entryId : Nat) (quantity : Int)
    (auditOk : Bool) (cdbRead cdbWrite : CDB) : ConsumeResult × CDB :=
  let deduction : Nat := quantity.toNat
  match cdbRead.entries.find? (fun e => e.id == entryId) with
  | none => (⟨false, some "NOT_FOUND", some "Entry not found."⟩, cdbWrite)
  | some current =>
      if current.status = EntryStatus.CLOSED then
        (⟨false, some "CLOSED", some "Entry is closed."⟩, cdbWrite)
      else if current.remaining_coupons < deduction then
        (⟨false, some "INSUFFICIENT_COUPONS", some "Not enough coupons left."⟩, cdbWrite)
      else
        let nextRemaining := current.remaining_coupons - deduction
        let nextStatus : EntryStatus :=
          if nextRemaining = 0 then .FOOD_EXHAUSTED else current.status
        match cdbWrite.entries.find?
            (fun e => e.id == entryId && e.remaining_coupons == current.remaining_coupons) with
        | none =>
            (⟨false, some "CONCURRENCY_ERROR",
              some "Someone else just redeemed coupons for this family."⟩, cdbWrite)
        | some _ =>
            let cdb1 : CDB := { cdbWrite with
              entries := cdbWrite.entries.map (fun e =>
                if e.id == entryId && e.remaining_coupons == current.remaining_coupons then
                  { e with remaining_coupons := nextRemaining, status := nextStatus }
                else e) }
            let cdb2 := clogAudit auditOk
              ⟨roleName role, current.event_id, current.family_id, "CONSUME",
                some [("remaining", .num current.remaining_coupons)],
                some [("remaining", .num nextRemaining)],
                "Deducted plates."⟩ cdb1
            (⟨true, none, some "Redeemed plates."⟩, cdb2)

/-- `consumeCoupons` as a single request (no interference). -/
def consumeCoupons (role : UserRole) (entryId : Nat) (quantity : Int)
    (auditOk : Bool) (cdb : CDB) : ConsumeResult × CDB :=
  consumeCouponsRW role entryId quantity auditOk cdb cdb

/-- `adjustCoupons`: admin only; shifts `total_coupons` and
`remaining_coupons` by the same delta, each clamped at zero
(`Math.max(0, _)`), recomputes the status (a positive remainder reopens
a FOOD_EXHAUSTED entry, a zero remainder exhausts it), updates the row
by id with no compare-and-swap, then logs an ADJUST entry. -/
def adjustCoupons (role : UserRole) (entryId : Nat) (adjustment : Int)
    (details : String) (auditOk : Bool) (cdb : CDB) : SimpleResult × CDB :=
  if role ≠ UserRole.admin then
    (⟨false, "Access Denied: Admin role required for adjustments."⟩, cdb)
  else
    match cdb.entries.find? (fun e => e.id == entryId) with
    | none => (⟨false, "Entry not found."⟩, cdb)
    | some current =>
        let nextTotal : Nat := ((current.total_coupons : Int) + adjustment).toNat
        let nextRemaining : Nat := ((current.remaining_coupons : Int) + adjustment).toNat
        let nextStatus : EntryStatus :=
          if nextRemaining > 0 ∧ current.status = EntryStatus.FOOD_EXHAUSTED then
            .ACTIVE
          else if nextRemaining = 0 then .FOOD_EXHAUSTED else current.status
        let cdb1 : CDB := { cdb with
          entries := cdb.entries.map (fun e =>
            if e.id == entryId then
              { e with
                total_coupons := nextTotal
                remaining_coupons := nextRemaining
                status := nextStatus }
            else e) }
        let cdb2 := clogAudit auditOk
          ⟨"admin", current.event_id, current.family_id, "ADJUST",
            some [("total", .num current.total_coupons),
              ("remaining", .num current.remaining_coupons)],
            some [("total", .num nextTotal), ("remaining", .num nextRemaining)],
            details⟩ cdb1
        (⟨true, "Coupons adjusted successfully."⟩, cdb2)

/-- Serialization of an entry status for audit payloads. -/
def statusName : EntryStatus → String
  | .ACTIVE => "ACTIVE"
  | .FOOD_EXHAUSTED => "FOOD_EXHAUSTED"
  | .CLOSED => "CLOSED"

/-- The status argument of `updateEntryStatus` (`CLOSED | ACTIVE`). -/
inductive NewStatus where
  | ACTIVE
  | CLOSED
deriving DecidableEq

/-- `updateEntryStatus`: admin only; sets the requested status, except
that reopening an entry with zero remaining coupons forces
FOOD_EXHAUSTED; logs CLOSE or REOPEN. -/
def updateEntryStatus (role : UserRole) (entryId : Nat) (newStatus : NewStatus)
    (auditOk : Bool) (cdb : CDB) : SimpleResult × CDB :=
  if role ≠ UserRole.admin then
    (⟨false, "Access Denied: Admin role required."⟩, cdb)
  else
    match cdb.entries.find? (fun e => e.id == entryId) with
    | none => (⟨false, "Entry not found."⟩, cdb)
    | some current =>
        let statusToSet : EntryStatus :=
          if newStatus = NewStatus.ACTIVE ∧ current.remaining_coupons = 0 then
            .FOOD_EXHAUSTED
          else match newStatus with
            | .ACTIVE => .ACTIVE
            | .CLOSED => .CLOSED
        let cdb1 : CDB := { cdb with
          entries := cdb.entries.map (fun e =>
            if e.id == entryId then { e with status := statusToSet } else e) }
        let cdb2 := clogAudit auditOk
          ⟨"admin", current.event_id, current.family_id,
            (match newStatus with | .CLOSED => "CLOSE" | .ACTIVE => "REOPEN"),
            some [("status", .str (statusName current.status))],
            some [("status", .str (statusName statusToSet))],
            "Status manually changed."⟩ cdb1
        (⟨true, "Entry status updated successfully."⟩, cdb2)

end Coupons

namespace BulkSync

/-!
The bulk-upsert reconciliation endpoint (the phone-keyed variant of
`POST /api/sync`): read the sheet rows, validate each one independently,
then upsert the valid rows into `families` with `onConflict: phone`.
The sheet cells are modelled pre-fetched: strings as read, and the
`Number(...)` parse of the size cell as `Option Int` (`none` = NaN).
The bulk upsert is modelled row by row in order; `updated_at` metadata
is not modelled.
-/

/-- One raw sheet row (columns B..E after the ignored id column), each
text cell already passed through the `String(cell).trim()` coercion of
the endpoint, and the size cell through `Number(cell)` (`none` = NaN). -/
structure RawRow where
  surname : String
  head_name : String
  phone : String
  family_size_num : Option Int
deriving DecidableEq

/-- A validated row, fields trimmed, ready for the upsert payload. -/
structure ValidRow where
  surname : String
  head_name : String
  phone : String
  family_size : Int
deriving DecidableEq

/-- A row of the `families` table in this schema generation. -/
structure PFam where
  id : Nat
  surname : String
  head_name : String
  phone : String
  family_size : Int
deriving DecidableEq

/-- The family directory: rows plus the id sequence. -/
structure PDir where
  rows : List PFam
  nextId : Nat
deriving DecidableEq

/-- The per-run counters reported by the endpoint. -/
structure SyncStats where
  total : Nat
  synced : Nat
  skipped : Nat
  errors : Nat
deriving DecidableEq

/-- Row validation: phone, surname and head name are required and
`family_size` must parse to a number `>= 1`; a failing row is skipped
(counted, never aborting the batch).  The `RawRow` fields stand for the
already-trimmed cell strings (`String(cell).trim()` is applied while
reading the sheet), so the emptiness checks are on the trimmed text. -/
def parseRow (r : RawRow) : Option ValidRow :=
  if r.phone = "" then none
  else if r.surname = "" then none
  else if r.head_name = "" then none
  else match r.family_size_num with
    | none => none
    | some n => if n < 1 then none else some ⟨r.surname, r.head_name, r.phone, n⟩

/-- The valid rows of a batch, in sheet order. -/
def validRows (input : List RawRow) : List ValidRow :=
  input.filterMap parseRow

/-- The conflict-update of one directory row: the payload overwrites
every column but the id. -/
def ovw (v : ValidRow) (f : PFam) : PFam :=
  { f with
    surname := v.surname
    head_name := v.head_name
    phone := v.phone
    family_size := v.family_size }

/-- The row-level effect of upserting `v`: rows whose phone matches are
overwritten, the others untouched. -/
def applyOne (v : ValidRow) (f : PFam) : PFam :=
  if f.phone == v.phone then ovw v f else f

/-- Whether a phone is already present in the directory. -/
def phoneIn (p : String) (d : PDir) : Bool :=
  d.rows.any (fun f => f.phone == p)

/-- Upsert of one payload keyed on `phone` (`onConflict: phone`):
overwrite the matching row when the phone exists, insert a fresh row
otherwise. -/
def upsertRow (v : ValidRow) (d : PDir) : PDir :=
  if phoneIn v.phone d then
    { d with rows := d.rows.map (applyOne v) }
  else
    { rows := d.rows ++ [⟨d.nextId, v.surname, v.head_name, v.phone, v.family_size⟩],
      nextId := d.nextId + 1 }

/-- The bulk upsert: apply the valid rows in sheet order. -/
def applyRows (vs : List ValidRow) (d : PDir) : PDir :=
  vs.foldl (fun d v => upsertRow v d) d

/-- The endpoint: empty sheets return zero stats untouched; otherwise
the valid rows are upserted and the run reports
`total` rows seen, `synced` = upserted count, `skipped` = validation
failures, `errors` = 0 (the upsert itself succeeding). -/
def bulkSync (input : List RawRow) (d : PDir) : SyncStats × PDir :=
  if input.length = 0 then (⟨0, 0, 0, 0⟩, d)
  else
    let vs := validRows input
    (⟨input.length, vs.length, input.length - vs.length, 0⟩, applyRows vs d)

end BulkSync

/-! ## Basic frame lemmas for audit logging -/

/-- `logAudit` only touches `audit_logs`: the families are untouched. -/
theorem Plates.logAudit_families (auditOk : Bool) (e : Plates.AuditLog) (db : Plates.DB) :
    (Plates.logAudit auditOk e db).families = db.families := by
  unfold Plates.logAudit
  split <;> rfl

/-- `logAudit` only touches `audit_logs`: the servings are untouched. -/
theorem Plates.logAudit_servings (auditOk : Bool) (e : Plates.AuditLog) (db : Plates.DB) :
    (Plates.logAudit auditOk e db).servings = db.servings := by
  unfold Plates.logAudit
  split <;> rfl

/-- `logAudit` only touches `audit_logs`: the id sequence is untouched. -/
theorem Plates.logAudit_nextServingId (auditOk : Bool) (e : Plates.AuditLog) (db : Plates.DB) :
    (Plates.logAudit auditOk e db).nextServingId = db.nextServingId := by
  unfold Plates.logAudit
  split <;> rfl

/-- The coupons `logAudit` only touches `audit_logs`: entries untouched. -/
theorem Coupons.clogAudit_entries (auditOk : Bool) (e : Coupons.CAudit) (cdb : Coupons.CDB) :
    (Coupons.clogAudit auditOk e cdb).entries = cdb.entries := by
  unfold Coupons.clogAudit
  split <;> rfl

/-- The coupons `logAudit` only touches `audit_logs`: events untouched. -/
theorem Coupons.clogAudit_events (auditOk : Bool) (e : Coupons.CAudit) (cdb : Coupons.CDB) :
    (Coupons.clogAudit auditOk e cdb).events = cdb.events := by
  unfold Coupons.clogAudit
  split <;> rfl

/-- The floor used by `servePlates` agrees with the floor of the
`FloorRing` instance of `ℚ`. -/
theorem ratFloor_eq_intFloor (q : ℚ) : Rat.floor q = ⌊q⌋ := rfl

/-- C10: `servePlates` coerces the requested quantity by
`Math.max(0, Math.floor(q))` before any storage access: every request
below one (zero, negative or fractional) is rejected as INVALID with
the state untouched, and every request `q >= 1` behaves exactly as the
request `floor q` — fractional quantities are floored, not rejected. -/
theorem C10_servePlates_quantity_coercion (role : Plates.UserRole)
    (eventName familyId : String) (q : ℚ) (stationId : Option String)
    (now : Nat) (auditOk : Bool) (db : Plates.DB) :
    (q < 1 →
      (Plates.servePlates role eventName familyId q stationId now auditOk db).1 =
        ⟨false, some "INVALID", some "Quantity must be at least 1.", none⟩ ∧
      (Plates.servePlates role eventName familyId q stationId now auditOk db).2 = db) ∧
    (1 ≤ q →
      Plates.servePlates role eventName familyId q stationId now auditOk db =
        Plates.servePlates role eventName familyId ((Rat.floor q : Int) : ℚ)
          stationId now auditOk db) := by
  constructor
  · intro hq
    have hfl : Rat.floor q < 1 := by
      rw [ratFloor_eq_intFloor]
      exact Int.floor_lt.mpr (by exact_mod_cast hq)
    have hz : (Rat.floor q).toNat = 0 := Int.toNat_eq_zero.mpr (by omega)
    unfold Plates.servePlates Plates.servePlatesRW
    rw [hz]
    exact ⟨rfl, rfl⟩
  · intro _
    have hff : Rat.floor (((Rat.floor q : Int) : ℚ)) = Rat.floor q := by
      rw [ratFloor_eq_intFloor, ratFloor_eq_intFloor, Int.floor_intCast]
    unfold Plates.servePlates Plates.servePlatesRW
    rw [hff]

/-- Concrete instance of `C10_servePlates_quantity_coercion`: a request
of one half is INVALID and a request of three halves equals a request
of its floor. -/
theorem C10_servePlates_quantity_coercion_witness :
    (Plates.servePlates .volunteer "E" "F001" (1/2 : ℚ) none 5 true
        ⟨[], [], [], 0⟩).2 = ⟨[], [], [], 0⟩ ∧
    Plates.servePlates .volunteer "E" "F001" (3/2 : ℚ) none 5 true ⟨[], [], [], 0⟩ =
      Plates.servePlates .volunteer "E" "F001" ((Rat.floor (3/2 : ℚ) : Int) : ℚ)
        none 5 true ⟨[], [], [], 0⟩ := by
  constructor
  · exact ((C10_servePlates_quantity_coercion .volunteer "E" "F001" (1/2 : ℚ) none 5 true
      ⟨[], [], [], 0⟩).1 (by norm_num)).2
  · exact (C10_servePlates_quantity_coercion .volunteer "E" "F001" (3/2 : ℚ) none 5 true
      ⟨[], [], [], 0⟩).2 (by norm_num)

/-- C2: `servePlates` writes through a conditional update keyed on the
`plates_used` value read at the start.  With the validations passing on
the read snapshot: when no row of the write-time state carries both the
read id and the read `plates_used` (the stored value changed), the call
returns the CONCURRENCY error and leaves the write-time state — in
particular every `plates_used` — unchanged, with no retry; when the
stored value still matches, the row is written to
`plates_used + quantity` and the call succeeds. -/
theorem C2_servePlates_conditional_update (role : Plates.UserRole)
    (eventName familyId : String) (q : ℚ) (stationId : Option String) (now : Nat)
    (auditOk : Bool) (dbRead dbWrite : Plates.DB)
    (family : Plates.FamilyR) (serving : Plates.Serving)
    (hfam : Plates.findFamily dbRead familyId = some family)
    (hserv : Plates.findServing dbRead eventName familyId = some serving)
    (hchk : serving.checked_in_at.isSome = true)
    (hq : (Rat.floor q).toNat ≠ 0)
    (hrem : ((Rat.floor q).toNat : Int) ≤
      (family.members_count : Int) - (serving.plates_used : Int)) :
    ((∀ s ∈ dbWrite.servings, s.id = serving.id → s.plates_used ≠ serving.plates_used) →
      (Plates.servePlatesRW role eventName familyId q stationId now auditOk
          dbRead dbWrite).1 =
        ⟨false, some "CONCURRENCY", some "Another device just served plates.", none⟩ ∧
      (Plates.servePlatesRW role eventName familyId q stationId now auditOk
          dbRead dbWrite).2 = dbWrite) ∧
    ((∃ s ∈ dbWrite.servings, s.id = serving.id ∧ s.plates_used = serving.plates_used) →
      (Plates.servePlatesRW role eventName familyId q stationId now auditOk
          dbRead dbWrite).1.success = true ∧
      (Plates.servePlatesRW role eventName familyId q stationId now auditOk
          dbRead dbWrite).2.servings = dbWrite.servings.map (fun s =>
        if s.id == serving.id && s.plates_used == serving.plates_used then
          { s with
            plates_used := serving.plates_used + (Rat.floor q).toNat
            last_updated := now }
        else s)) := by
  obtain ⟨t, ht⟩ := Option.isSome_iff_exists.mp hchk
  have hno : ¬ ((Rat.floor q).toNat : Int) >
      (family.members_count : Int) - (serving.plates_used : Int) := by omega
  constructor
  · intro hmiss
    have hnone : dbWrite.servings.find?
        (fun s => s.id == serving.id && s.plates_used == serving.plates_used) = none := by
      rw [List.find?_eq_none]
      intro s hs
      simp only [Bool.and_eq_true, beq_iff_eq, not_and]
      intro hid
      exact hmiss s hs hid
    unfold Plates.servePlatesRW
    rw [hfam, hserv]
    dsimp only
    rw [if_neg hq, ht]
    dsimp only [Option.isNone_some]
    rw [if_neg (by decide), if_neg hno, hnone]
    exact ⟨rfl, rfl⟩
  · intro hhit
    have hsome : (dbWrite.servings.find?
        (fun s => s.id == serving.id && s.plates_used == serving.plates_used)).isSome := by
      rw [List.find?_isSome]
      obtain ⟨s, hs, hid, hused⟩ := hhit
      exact ⟨s, hs, by simp [hid, hused]⟩
    obtain ⟨w, hw⟩ := Option.isSome_iff_exists.mp hsome
    unfold Plates.servePlatesRW
    rw [hfam, hserv]
    dsimp only
    rw [if_neg hq, ht]
    dsimp only [Option.isNone_some]
    rw [if_neg (by decide), if_neg hno, hw]
    exact ⟨rfl, by rw [Plates.logAudit_servings]⟩

/-- Concrete instance of `C2_servePlates_conditional_update`: the read
snapshot saw one plate used; at write time the stored row has two, so
the serve fails with CONCURRENCY and nothing changes. -/
theorem C2_servePlates_conditional_update_witness :
    (Plates.servePlatesRW .volunteer "E" "F001" (1 : ℚ) none 9 true
        ⟨[⟨"F001", "Shah", "R Shah", "98", 4, none⟩],
          [⟨0, "E", "F001", 1, some 5, 5⟩], [], 1⟩
        ⟨[⟨"F001", "Shah", "R Shah", "98", 4, none⟩],
          [⟨0, "E", "F001", 2, some 5, 6⟩], [], 1⟩).1 =
      ⟨false, some "CONCURRENCY", some "Another device just served plates.", none⟩ := by
  have h := (C2_servePlates_conditional_update .volunteer "E" "F001" (1 : ℚ) none 9 true
    ⟨[⟨"F001", "Shah", "R Shah", "98", 4, none⟩],
      [⟨0, "E", "F001", 1, some 5, 5⟩], [], 1⟩
    ⟨[⟨"F001", "Shah", "R Shah", "98", 4, none⟩],
      [⟨0, "E", "F001", 2, some 5, 6⟩], [], 1⟩
    ⟨"F001", "Shah", "R Shah", "98", 4, none⟩ ⟨0, "E", "F001", 1, some 5, 5⟩
    (by decide) (by decide) (by decide) (by decide) (by decide)).1 (by decide)
  exact h.1

/-- C6: check-in rejects a second attempt for the same (session,
family) pair.  In the plates module: when the servings row already
carries a check-in timestamp the call fails with ALREADY_CHECKED_IN and
changes nothing, and when no row exists the row is created with
`plates_used = 0` and the check-in timestamp.  In the coupons module
(called with the base family size as `members_present`): an existing
entry for the (event, family) pair makes the call fail with the
duplicate rejection and changes nothing, and otherwise the entry is
created with zero used coupons, entitlement = base family size plus the
clamped extra guests, and status ACTIVE exactly when the entitlement is
positive (else FOOD_EXHAUSTED). -/
theorem C6_checkIn_idempotency_boundary (role : Plates.UserRole)
    (eventName familyId : String) (stationId : Option String) (now : Nat)
    (auditOk : Bool) (db : Plates.DB) (family : Plates.FamilyR)
    (hfam : Plates.findFamily db familyId = some family) :
    (∀ existing, Plates.findServing db eventName familyId = some existing →
      existing.checked_in_at.isSome = true →
      (Plates.checkInFamily role eventName familyId stationId now auditOk db).1 =
        ⟨false, some "ALREADY_CHECKED_IN", some "Family is already checked in.", none⟩ ∧
      (Plates.checkInFamily role eventName familyId stationId now auditOk db).2 = db) ∧
    (Plates.findServing db eventName familyId = none →
      (Plates.checkInFamily role eventName familyId stationId now auditOk db).1.success =
        true ∧
      (Plates.checkInFamily role eventName familyId stationId now auditOk db).2.servings =
        db.servings ++ [⟨db.nextServingId, eventName, familyId, 0, some now, now⟩]) ∧
    (∀ (cdb : Coupons.CDB) (ev : Coupons.EventR) (fs : Nat) (guests cpm gcp : Int)
        (cfid : String),
      cdb.events.find? (fun e => e.name == eventName) = some ev →
      ((∃ en ∈ cdb.entries, en.event_id = ev.id ∧ en.family_id = cfid) →
        Coupons.checkInFamily role eventName cfid (fs : Int) guests cpm gcp now auditOk
          cdb = (.dup, cdb)) ∧
      ((∀ en ∈ cdb.entries, ¬(en.event_id = ev.id ∧ en.family_id = cfid)) →
        (Coupons.checkInFamily role eventName cfid (fs : Int) guests cpm gcp now auditOk
            cdb).1 = .ok cdb.nextEntryId ∧
        (Coupons.checkInFamily role eventName cfid (fs : Int) guests cpm gcp now auditOk
            cdb).2.entries = cdb.entries ++
          [⟨cdb.nextEntryId, ev.id, cfid, fs, guests.toNat, fs, guests.toNat,
            fs + guests.toNat, fs + guests.toNat,
            if fs + guests.toNat > 0 then .ACTIVE else .FOOD_EXHAUSTED, now⟩])) := by
  refine ⟨?_, ?_, ?_⟩
  · intro existing hx hsome
    unfold Plates.checkInFamily
    rw [hfam, hx]
    dsimp only
    rw [if_pos hsome]
    exact ⟨rfl, rfl⟩
  · intro hx
    unfold Plates.checkInFamily
    rw [hfam, hx]
    dsimp only
    exact ⟨rfl, by rw [Plates.logAudit_servings]⟩
  · intro cdb ev fs guests cpm gcp cfid hev
    have hmem : ((fs : Int)).toNat = fs := Int.toNat_natCast fs
    constructor
    · intro hdup
      have hany : (cdb.entries.any
          (fun en => en.event_id == ev.id && en.family_id == cfid)) = true := by
        rw [List.any_eq_true]
        obtain ⟨en, hen, hid, hfid⟩ := hdup
        exact ⟨en, hen, by simp [hid, hfid]⟩
      unfold Coupons.checkInFamily Coupons.getOrCreateEventByName
      rw [hev]
      dsimp only
      rw [if_pos hany]
    · intro hnone
      have hany : (cdb.entries.any
          (fun en => en.event_id == ev.id && en.family_id == cfid)) = false := by
        rw [List.any_eq_false]
        intro en hen
        simp only [Bool.and_eq_true, beq_iff_eq, not_and]
        intro hid
        exact fun hfid => hnone en hen ⟨hid, hfid⟩
      unfold Coupons.checkInFamily Coupons.getOrCreateEventByName
      rw [hev]
      dsimp only
      rw [if_neg (by rw [hany]; exact Bool.false_ne_true)]
      rw [hmem]
      exact ⟨rfl, by rw [Coupons.clogAudit_entries]⟩

/-- Concrete instance of `C6_checkIn_idempotency_boundary`: a second
plates check-in for a checked-in family is rejected with the state
unchanged, and a second coupons check-in for an existing entry is
rejected with the state unchanged. -/
theorem C6_checkIn_idempotency_boundary_witness :
    (Plates.checkInFamily .volunteer "E" "F001" none 9 true
        ⟨[⟨"F001", "Shah", "R Shah", "98", 4, none⟩],
          [⟨0, "E", "F001", 0, some 5, 5⟩], [], 1⟩).2 =
      ⟨[⟨"F001", "Shah", "R Shah", "98", 4, none⟩],
        [⟨0, "E", "F001", 0, some 5, 5⟩], [], 1⟩ ∧
    Coupons.checkInFamily .volunteer "E" "F9" (4 : Int) 0 2 100 9 true
        ⟨[⟨1, "E", 2, 100⟩], [⟨0, 1, "F9", 4, 0, 4, 0, 4, 4, .ACTIVE, 5⟩], [], 2, 1⟩ =
      (.dup, ⟨[⟨1, "E", 2, 100⟩], [⟨0, 1, "F9", 4, 0, 4, 0, 4, 4, .ACTIVE, 5⟩], [], 2, 1⟩) := by
  have h := C6_checkIn_idempotency_boundary .volunteer "E" "F001" none 9 true
    ⟨[⟨"F001", "Shah", "R Shah", "98", 4, none⟩],
      [⟨0, "E", "F001", 0, some 5, 5⟩], [], 1⟩
    ⟨"F001", "Shah", "R Shah", "98", 4, none⟩ (by decide)
  refine ⟨(h.1 ⟨0, "E", "F001", 0, some 5, 5⟩ (by decide) (by decide)).2, ?_⟩
  have h2 := (h.2.2 ⟨[⟨1, "E", 2, 100⟩], [⟨0, 1, "F9", 4, 0, 4, 0, 4, 4, .ACTIVE, 5⟩],
      [], 2, 1⟩ ⟨1, "E", 2, 100⟩ 4 0 2 100 "F9" (by decide)).1
  exact h2 ⟨⟨0, 1, "F9", 4, 0, 4, 0, 4, 4, .ACTIVE, 5⟩, by decide, by decide, by decide⟩

/-- C5 counterexample: a checked-in but CLOSED entry with three of
three coupons remaining; a serve of quantity = remaining does not
succeed as the claim states — it is rejected with the CLOSED error. -/
theorem C5_serve_boundary_counterexample :
    (Coupons.consumeCoupons .volunteer 0 (3 : Int) true
        ⟨[⟨1, "E", 2, 100⟩], [⟨0, 1, "F9", 3, 0, 3, 0, 3, 3, .CLOSED, 5⟩], [], 2, 1⟩).1.success
        = false ∧
    (Coupons.consumeCoupons .volunteer 0 (3 : Int) true
        ⟨[⟨1, "E", 2, 100⟩], [⟨0, 1, "F9", 3, 0, 3, 0, 3, 3, .CLOSED, 5⟩], [], 2, 1⟩).1.error
        = some "CLOSED" := by
  constructor
  · rfl
  · rfl

/-- C5 (amended): the serve boundary for records that are not CLOSED.
In the coupons ledger, serving quantity = remaining on a non-CLOSED
entry succeeds, leaves zero remaining and sets FOOD_EXHAUSTED, while
quantity = remaining + 1 fails with the insufficient error and changes
nothing.  In the plates ledger (which stores no status), the same holds
whenever remaining is at least one, success leaving
`plates_used = plates_entitled` and reporting zero remaining. -/
theorem C5_serve_boundary (role : Plates.UserRole) (auditOk : Bool) (now : Nat)
    (entryId : Nat) (cdb : Coupons.CDB) (entry : Coupons.Entry)
    (hfind : cdb.entries.find? (fun e => e.id == entryId) = some entry)
    (hstat : entry.status ≠ Coupons.EntryStatus.CLOSED)
    (eventName familyId : String) (stationId : Option String) (db : Plates.DB)
    (family : Plates.FamilyR) (serving : Plates.Serving)
    (hfam : Plates.findFamily db familyId = some family)
    (hserv : Plates.findServing db eventName familyId = some serving)
    (hchk : serving.checked_in_at.isSome = true)
    (hlt : serving.plates_used < family.members_count) :
    ((Coupons.consumeCoupons role entryId (entry.remaining_coupons : Int) auditOk
        cdb).1.success = true ∧
      (Coupons.consumeCoupons role entryId (entry.remaining_coupons : Int) auditOk
          cdb).2.entries.find? (fun e => e.id == entryId) =
        some { entry with remaining_coupons := 0, status := .FOOD_EXHAUSTED }) ∧
    ((Coupons.consumeCoupons role entryId ((entry.remaining_coupons : Int) + 1) auditOk
        cdb).1 = ⟨false, some "INSUFFICIENT_COUPONS", some "Not enough coupons left."⟩ ∧
      (Coupons.consumeCoupons role entryId ((entry.remaining_coupons : Int) + 1) auditOk
          cdb).2 = cdb) ∧
    ((Plates.servePlates role eventName familyId
        ((family.members_count - serving.plates_used : Nat) : ℚ) stationId now auditOk
        db).1.success = true ∧
      (Plates.servePlates role eventName familyId
          ((family.members_count - serving.plates_used : Nat) : ℚ) stationId now auditOk
          db).1.remaining = some 0 ∧
      Plates.findServing (Plates.servePlates role eventName familyId
          ((family.members_count - serving.plates_used : Nat) : ℚ) stationId now auditOk
          db).2 eventName familyId =
        some { serving with plates_used := family.members_count, last_updated := now }) ∧
    ((Plates.servePlates role eventName familyId
        (((family.members_count - serving.plates_used : Nat) : ℚ) + 1) stationId now
        auditOk db).1 =
      ⟨false, some "INSUFFICIENT_PLATES", some "Not enough plates remaining.", none⟩ ∧
      (Plates.servePlates role eventName familyId
          (((family.members_count - serving.plates_used : Nat) : ℚ) + 1) stationId now
          auditOk db).2 = db) := by
  have hidtrue : (entry.id == entryId) = true := by
    have := List.find?_some hfind
    simpa using this
  have hmem : entry ∈ cdb.entries := List.mem_of_find?_eq_some hfind
  have hded : ((entry.remaining_coupons : Int)).toNat = entry.remaining_coupons :=
    Int.toNat_natCast _
  have hserv' : db.servings.find?
      (fun s => s.event_name == eventName && s.family_id == familyId) = some serving :=
    hserv
  have hsmem : serving ∈ db.servings := List.mem_of_find?_eq_some hserv'
  have hsprop := List.find?_some hserv'
  obtain ⟨t, ht⟩ := Option.isSome_iff_exists.mp hchk
  have hrfl : Rat.floor (((family.members_count - serving.plates_used : Nat)) : ℚ) =
      ((family.members_count - serving.plates_used : Nat) : Int) := by
    rw [ratFloor_eq_intFloor]
    exact Int.floor_natCast _
  refine ⟨?_, ?_, ?_, ?_⟩
  · unfold Coupons.consumeCoupons Coupons.consumeCouponsRW
    rw [hfind]
    dsimp only
    rw [if_neg hstat, hded]
    rw [if_neg (lt_irrefl entry.remaining_coupons)]
    have hsome : (cdb.entries.find? (fun e =>
        e.id == entryId && e.remaining_coupons == entry.remaining_coupons)).isSome := by
      rw [List.find?_isSome]
      exact ⟨entry, hmem, by simp [hidtrue]⟩
    obtain ⟨w, hw⟩ := Option.isSome_iff_exists.mp hsome
    rw [hw]
    dsimp only
    refine ⟨rfl, ?_⟩
    rw [Coupons.clogAudit_entries]
    rw [List.find?_map]
    have hcomp : ((fun (e : Coupons.Entry) => e.id == entryId) ∘ (fun e =>
        if e.id == entryId && e.remaining_coupons == entry.remaining_coupons then
          { e with
            remaining_coupons := entry.remaining_coupons - entry.remaining_coupons
            status := if entry.remaining_coupons - entry.remaining_coupons = 0 then
              Coupons.EntryStatus.FOOD_EXHAUSTED else entry.status }
        else e)) = (fun (e : Coupons.Entry) => e.id == entryId) := by
      funext e
      simp only [Function.comp]
      split <;> rfl
    rw [hcomp, hfind]
    have hid : entry.id = entryId := by simpa using hidtrue
    simp [hid]
  · unfold Coupons.consumeCoupons Coupons.consumeCouponsRW
    rw [hfind]
    dsimp only
    rw [if_neg hstat]
    have hd1 : ((entry.remaining_coupons : Int) + 1).toNat = entry.remaining_coupons + 1 := by
      omega
    rw [hd1]
    rw [if_pos (Nat.lt_succ_self entry.remaining_coupons)]
    exact ⟨rfl, rfl⟩
  · unfold Plates.servePlates Plates.servePlatesRW
    rw [hfam, hserv]
    dsimp only
    rw [hrfl, Int.toNat_natCast]
    rw [if_neg (by omega : ¬ family.members_count - serving.plates_used = 0)]
    rw [ht]
    dsimp only [Option.isNone_some]
    rw [if_neg (by decide)]
    rw [if_neg (by push_cast [Nat.cast_sub (le_of_lt hlt)]; omega :
      ¬ ((family.members_count - serving.plates_used : Nat) : Int) >
        (family.members_count : Int) - (serving.plates_used : Int))]
    have hsome : (db.servings.find? (fun s =>
        s.id == serving.id && s.plates_used == serving.plates_used)).isSome := by
      rw [List.find?_isSome]
      exact ⟨serving, hsmem, by simp⟩
    obtain ⟨w, hw⟩ := Option.isSome_iff_exists.mp hsome
    rw [hw]
    dsimp only
    have hsum : serving.plates_used + (family.members_count - serving.plates_used) =
        family.members_count := by omega
    refine ⟨rfl, ?_, ?_⟩
    · rw [hsum]
      simp
    · unfold Plates.findServing
      rw [Plates.logAudit_servings]
      rw [List.find?_map]
      have hcomp : ((fun (s : Plates.Serving) =>
          s.event_name == eventName && s.family_id == familyId) ∘ (fun s =>
          if s.id == serving.id && s.plates_used == serving.plates_used then
            { s with
              plates_used := serving.plates_used +
                (family.members_count - serving.plates_used)
              last_updated := now }
          else s)) = (fun (s : Plates.Serving) =>
          s.event_name == eventName && s.family_id == familyId) := by
        funext s
        simp only [Function.comp]
        split <;> rfl
      rw [hcomp, hserv']
      simp [hsum, ht]
  · unfold Plates.servePlates Plates.servePlatesRW
    rw [hfam, hserv]
    dsimp only
    have hcast1 : (((family.members_count - serving.plates_used : Nat) : ℚ) + 1) =
        (((family.members_count - serving.plates_used + 1 : Nat)) : ℚ) := by
      push_cast
      ring
    rw [hcast1]
    rw [show Rat.floor (((family.members_count - serving.plates_used + 1 : Nat)) : ℚ) =
        ((family.members_count - serving.plates_used + 1 : Nat) : Int) from by
      rw [ratFloor_eq_intFloor]; exact Int.floor_natCast _]
    rw [Int.toNat_natCast]
    rw [if_neg (by omega : ¬ family.members_count - serving.plates_used + 1 = 0)]
    rw [ht]
    dsimp only [Option.isNone_some]
    rw [if_neg (by decide)]
    rw [if_pos (by push_cast [Nat.cast_sub (le_of_lt hlt)]; omega :
      ((family.members_count - serving.plates_used + 1 : Nat) : Int) >
        (family.members_count : Int) - (serving.plates_used : Int))]
    exact ⟨rfl, rfl⟩

/-- Concrete instance of `C5_serve_boundary`: an ACTIVE entry with two
coupons remaining is served two and succeeds, and a plates serve of the
whole remainder reports zero remaining. -/
theorem C5_serve_boundary_witness :
    (Coupons.consumeCoupons .volunteer 0 (2 : Int) true
        ⟨[⟨1, "E", 2, 100⟩], [⟨0, 1, "F9", 5, 0, 5, 0, 5, 2, .ACTIVE, 5⟩], [], 2, 1⟩).1.success
      = true ∧
    (Plates.servePlates .volunteer "E" "F001" ((2 : Nat) : ℚ) none 9 true
        ⟨[⟨"F001", "Shah", "R Shah", "98", 4, none⟩],
          [⟨0, "E", "F001", 2, some 5, 5⟩], [], 1⟩).1.remaining = some 0 := by
  have h := C5_serve_boundary .volunteer true 9 0
    ⟨[⟨1, "E", 2, 100⟩], [⟨0, 1, "F9", 5, 0, 5, 0, 5, 2, .ACTIVE, 5⟩], [], 2, 1⟩
    ⟨0, 1, "F9", 5, 0, 5, 0, 5, 2, .ACTIVE, 5⟩ (by decide) (by decide)
    "E" "F001" none
    ⟨[⟨"F001", "Shah", "R Shah", "98", 4, none⟩], [⟨0, "E", "F001", 2, some 5, 5⟩], [], 1⟩
    ⟨"F001", "Shah", "R Shah", "98", 4, none⟩ ⟨0, "E", "F001", 2, some 5, 5⟩
    (by decide) (by decide) (by decide) (by decide)
  exact ⟨h.1.1, h.2.2.1.2.1⟩

/-- C7: volunteers may undo a check-in only while nothing has been
served; with plates used positive a volunteer `deleteEntry` fails with
the food-already-served message and changes nothing, an admin call
always succeeds and removes the record, and a volunteer call with zero
plates used also succeeds and removes the record. -/
theorem C7_undoCheckIn_role_guard (entryId : Nat) (auditOk : Bool) (cdb : Coupons.CDB)
    (entry : Coupons.Entry)
    (hfind : cdb.entries.find? (fun e => e.id == entryId) = some entry)
    (hle : entry.remaining_coupons ≤ entry.total_coupons) :
    (0 < entry.total_coupons - entry.remaining_coupons →
      (Coupons.deleteEntry .volunteer entryId auditOk cdb).1.success = false ∧
      (Coupons.deleteEntry .volunteer entryId auditOk cdb).1.message =
        "Cannot undo: Food already served! Please contact Admin." ∧
      (Coupons.deleteEntry .volunteer entryId auditOk cdb).2 = cdb) ∧
    ((Coupons.deleteEntry .admin entryId auditOk cdb).1.success = true ∧
      ∀ e ∈ (Coupons.deleteEntry .admin entryId auditOk cdb).2.entries, e.id ≠ entryId) ∧
    (entry.total_coupons - entry.remaining_coupons = 0 →
      (Coupons.deleteEntry .volunteer entryId auditOk cdb).1.success = true ∧
      ∀ e ∈ (Coupons.deleteEntry .volunteer entryId auditOk cdb).2.entries, e.id ≠ entryId) := by
  refine ⟨?_, ?_, ?_⟩
  · intro hpos
    have hne : entry.remaining_coupons ≠ entry.total_coupons := by omega
    have hc : Plates.UserRole.volunteer ≠ Plates.UserRole.admin ∧
        entry.remaining_coupons ≠ entry.total_coupons := ⟨by decide, hne⟩
    unfold Coupons.deleteEntry
    rw [hfind]
    dsimp only
    rw [if_pos hc]
    exact ⟨rfl, rfl, rfl⟩
  · have hcond : ¬(Plates.UserRole.admin ≠ Plates.UserRole.admin ∧
        entry.remaining_coupons ≠ entry.total_coupons) := by
      intro h
      exact h.1 rfl
    unfold Coupons.deleteEntry
    rw [hfind]
    dsimp only
    rw [if_neg hcond]
    refine ⟨rfl, ?_⟩
    intro e he
    rw [Coupons.clogAudit_entries] at he
    simp only [List.mem_filter, Bool.not_eq_eq_eq_not, Bool.not_true, beq_eq_false_iff_ne,
      ne_eq] at he
    exact he.2
  · intro hzero
    have heq : entry.remaining_coupons = entry.total_coupons := by omega
    have hcond : ¬(Plates.UserRole.volunteer ≠ Plates.UserRole.admin ∧
        entry.remaining_coupons ≠ entry.total_coupons) := by
      intro h
      exact h.2 heq
    unfold Coupons.deleteEntry
    rw [hfind]
    dsimp only
    rw [if_neg hcond]
    refine ⟨rfl, ?_⟩
    intro e he
    rw [Coupons.clogAudit_entries] at he
    simp only [List.mem_filter, Bool.not_eq_eq_eq_not, Bool.not_true, beq_eq_false_iff_ne,
      ne_eq] at he
    exact he.2

/-- Concrete instance of `C7_undoCheckIn_role_guard`: one entry with two
of five coupons remaining (three plates served). -/
theorem C7_undoCheckIn_role_guard_witness :
    (Coupons.deleteEntry .volunteer 7 true
        ⟨[], [⟨7, 1, "F001", 5, 0, 5, 0, 5, 2, .ACTIVE, 10⟩], [], 2, 8⟩).1.success = false ∧
    (Coupons.deleteEntry .admin 7 true
        ⟨[], [⟨7, 1, "F001", 5, 0, 5, 0, 5, 2, .ACTIVE, 10⟩], [], 2, 8⟩).1.success = true := by
  have h := C7_undoCheckIn_role_guard 7 true
    ⟨[], [⟨7, 1, "F001", 5, 0, 5, 0, 5, 2, .ACTIVE, 10⟩], [], 2, 8⟩
    ⟨7, 1, "F001", 5, 0, 5, 0, 5, 2, .ACTIVE, 10⟩ (by decide) (by decide)
  exact ⟨(h.1 (by decide)).1, h.2.1.1⟩

/-! ## Replay lemmas for the bulk phone-keyed upsert -/

/-- Mapping a function that fixes every member of a list is the
identity. -/
theorem BulkSync.map_self {α : Type} (f : α → α) (l : List α)
    (h : ∀ a ∈ l, f a = a) : l.map f = l := by
  induction l with
  | nil => rfl
  | cons a t ih =>
    rw [List.map_cons, h a (List.mem_cons_self a t),
      ih (fun b hb => h b (List.mem_cons_of_mem a hb))]

/-- Overwriting twice is overwriting with the last payload. -/
theorem BulkSync.ovw_ovw (w v : BulkSync.ValidRow) (f : BulkSync.PFam) :
    BulkSync.ovw w (BulkSync.ovw v f) = BulkSync.ovw w f := rfl

/-- `applyOne` never changes the phone of a row (the overwrite writes
the phone it matched on). -/
theorem BulkSync.applyOne_phone (v : BulkSync.ValidRow) (f : BulkSync.PFam) :
    (BulkSync.applyOne v f).phone = f.phone := by
  unfold BulkSync.applyOne
  by_cases h : (f.phone == v.phone) = true
  · rw [if_pos h]
    exact (eq_of_beq h).symm
  · rw [if_neg h]

/-- An overwrite absorbs a preceding `applyOne`. -/
theorem BulkSync.ovw_applyOne (w v : BulkSync.ValidRow) (f : BulkSync.PFam) :
    BulkSync.ovw w (BulkSync.applyOne v f) = BulkSync.ovw w f := by
  unfold BulkSync.applyOne
  by_cases h : (f.phone == v.phone) = true
  · rw [if_pos h]
    exact BulkSync.ovw_ovw w v f
  · rw [if_neg h]

/-- The batch row that decides the final payload at a phone: the last
one carrying that phone. -/
def BulkSync.lastMatch (vs : List BulkSync.ValidRow) (p : String) :
    Option BulkSync.ValidRow :=
  vs.reverse.find? (fun v => v.phone == p)

/-- `lastMatch` on a cons: the tail wins, the head only as fallback. -/
theorem BulkSync.lastMatch_cons (v : BulkSync.ValidRow) (t : List BulkSync.ValidRow)
    (p : String) :
    BulkSync.lastMatch (v :: t) p =
      (BulkSync.lastMatch t p).or ([v].find? (fun v => v.phone == p)) := by
  unfold BulkSync.lastMatch
  rw [List.reverse_cons, List.find?_append]

/-- The pointwise replay of a whole batch over one row. -/
def BulkSync.applyAll (vs : List BulkSync.ValidRow) (f : BulkSync.PFam) :
    BulkSync.PFam :=
  vs.foldl (fun f v => BulkSync.applyOne v f) f

/-- Replaying one row is the overwrite by its last matching payload. -/
theorem BulkSync.applyAll_eq_lastMatch (vs : List BulkSync.ValidRow)
    (f : BulkSync.PFam) :
    BulkSync.applyAll vs f =
      match BulkSync.lastMatch vs f.phone with
      | none => f
      | some w => BulkSync.ovw w f := by
  induction vs generalizing f with
  | nil => rfl
  | cons v t ih =>
    show BulkSync.applyAll t (BulkSync.applyOne v f) = _
    rw [ih (BulkSync.applyOne v f), BulkSync.applyOne_phone]
    rw [BulkSync.lastMatch_cons]
    cases hm : BulkSync.lastMatch t f.phone with
    | some w =>
      dsimp only [Option.or]
      exact BulkSync.ovw_applyOne w v f
    | none =>
      dsimp only [Option.or]
      by_cases h : f.phone = v.phone
      · have hb : (v.phone == f.phone) = true := by rw [beq_iff_eq]; exact h.symm
        simp only [List.find?, hb]
        unfold BulkSync.applyOne
        rw [if_pos (by rw [beq_iff_eq]; exact h)]
      · have hb : (v.phone == f.phone) = false := by
          rw [beq_eq_false_iff_ne]
          exact fun hx => h hx.symm
        simp only [List.find?, hb]
        unfold BulkSync.applyOne
        rw [if_neg (by rw [beq_iff_eq]; exact h)]

/-- Replaying a batch never changes the phone of a row. -/
theorem BulkSync.applyAll_phone (vs : List BulkSync.ValidRow) (f : BulkSync.PFam) :
    (BulkSync.applyAll vs f).phone = f.phone := by
  rw [BulkSync.applyAll_eq_lastMatch]
  cases hm : BulkSync.lastMatch vs f.phone with
  | none => rfl
  | some w =>
    have hp := List.find?_some
      (show vs.reverse.find? (fun x => x.phone == f.phone) = some w from hm)
    show w.phone = f.phone
    exact eq_of_beq hp

/-- Pointwise replay is idempotent. -/
theorem BulkSync.applyAll_applyAll (vs : List BulkSync.ValidRow) (f : BulkSync.PFam) :
    BulkSync.applyAll vs (BulkSync.applyAll vs f) = BulkSync.applyAll vs f := by
  rw [BulkSync.applyAll_eq_lastMatch vs (BulkSync.applyAll vs f),
    BulkSync.applyAll_phone, BulkSync.applyAll_eq_lastMatch vs f]
  cases hm : BulkSync.lastMatch vs f.phone with
  | none => rfl
  | some w =>
    dsimp only
    exact BulkSync.ovw_ovw w w f

/-- The phone predicate is blind to `applyOne`. -/
theorem BulkSync.phonePred_comp (p : String) (v : BulkSync.ValidRow) :
    ((fun f : BulkSync.PFam => f.phone == p) ∘ BulkSync.applyOne v) =
      (fun f : BulkSync.PFam => f.phone == p) := by
  funext f
  simp only [Function.comp]
  rw [BulkSync.applyOne_phone]

/-- An upsert keeps every phone that was present. -/
theorem BulkSync.phoneIn_upsert_mono (p : String) (v : BulkSync.ValidRow)
    (d : BulkSync.PDir) (h : BulkSync.phoneIn p d = true) :
    BulkSync.phoneIn p (BulkSync.upsertRow v d) = true := by
  unfold BulkSync.upsertRow
  by_cases hp : BulkSync.phoneIn v.phone d = true
  · rw [if_pos hp]
    unfold BulkSync.phoneIn at h ⊢
    dsimp only
    rw [List.any_map, BulkSync.phonePred_comp]
    exact h
  · rw [if_neg hp]
    unfold BulkSync.phoneIn at h ⊢
    dsimp only
    rw [List.any_append, h]
    rfl

/-- An upsert makes its own phone present. -/
theorem BulkSync.phoneIn_upsert_self (v : BulkSync.ValidRow) (d : BulkSync.PDir) :
    BulkSync.phoneIn v.phone (BulkSync.upsertRow v d) = true := by
  unfold BulkSync.upsertRow
  by_cases hp : BulkSync.phoneIn v.phone d = true
  · rw [if_pos hp]
    unfold BulkSync.phoneIn at hp ⊢
    dsimp only
    rw [List.any_map, BulkSync.phonePred_comp]
    exact hp
  · rw [if_neg hp]
    unfold BulkSync.phoneIn
    dsimp only
    rw [List.any_append]
    simp

/-- Applying a batch keeps every phone that was present. -/
theorem BulkSync.phoneIn_applyRows_mono (p : String) (vs : List BulkSync.ValidRow)
    (d : BulkSync.PDir) (h : BulkSync.phoneIn p d = true) :
    BulkSync.phoneIn p (BulkSync.applyRows vs d) = true := by
  induction vs generalizing d with
  | nil => exact h
  | cons v t ih => exact ih (BulkSync.upsertRow v d) (BulkSync.phoneIn_upsert_mono p v d h)

/-- After applying a batch, every batch phone is present. -/
theorem BulkSync.allPresent (vs : List BulkSync.ValidRow) (d : BulkSync.PDir) :
    ∀ v ∈ vs, BulkSync.phoneIn v.phone (BulkSync.applyRows vs d) = true := by
  induction vs generalizing d with
  | nil => intro v hv; cases hv
  | cons w t ih =>
    intro v hv
    rcases List.mem_cons.mp hv with rfl | hv'
    · exact BulkSync.phoneIn_applyRows_mono v.phone t (BulkSync.upsertRow v d)
        (BulkSync.phoneIn_upsert_self v d)
    · exact ih (BulkSync.upsertRow w d) v hv'

/-- When every batch phone is present, the batch acts as a pure map
over the rows: no inserts, ids and order untouched. -/
theorem BulkSync.applyRows_present (vs : List BulkSync.ValidRow) (d : BulkSync.PDir)
    (h : ∀ v ∈ vs, BulkSync.phoneIn v.phone d = true) :
    BulkSync.applyRows vs d = { d with rows := d.rows.map (BulkSync.applyAll vs) } := by
  induction vs generalizing d with
  | nil =>
    show d = _
    rw [BulkSync.map_self (BulkSync.applyAll []) d.rows (fun a _ => rfl)]
  | cons v t ih =>
    have hv := h v (List.mem_cons_self v t)
    show BulkSync.applyRows t (BulkSync.upsertRow v d) = _
    rw [show BulkSync.upsertRow v d = { d with rows := d.rows.map (BulkSync.applyOne v) }
      from by unfold BulkSync.upsertRow; rw [if_pos hv]]
    have hpres : ∀ w ∈ t,
        BulkSync.phoneIn w.phone { d with rows := d.rows.map (BulkSync.applyOne v) } =
          true := by
      intro w hw
      unfold BulkSync.phoneIn
      dsimp only
      rw [List.any_map, BulkSync.phonePred_comp]
      exact h w (List.mem_cons_of_mem v hw)
    rw [ih { d with rows := d.rows.map (BulkSync.applyOne v) } hpres]
    dsimp only
    rw [List.map_map]
    rfl

/-- Rows whose phone the batch never mentions pass through the batch
untouched as members. -/
theorem BulkSync.mem_applyRows_untouched (t : List BulkSync.ValidRow)
    (d : BulkSync.PDir) (r : BulkSync.PFam)
    (hnm : ∀ w ∈ t, (w.phone == r.phone) = false) :
    r ∈ (BulkSync.applyRows t d).rows ↔ r ∈ d.rows := by
  induction t generalizing d with
  | nil => exact Iff.rfl
  | cons w t2 ih =>
    have hw := hnm w (List.mem_cons_self w t2)
    have hih := ih (BulkSync.upsertRow w d)
      (fun x hx => hnm x (List.mem_cons_of_mem w hx))
    rw [show BulkSync.applyRows (w :: t2) d = BulkSync.applyRows t2 (BulkSync.upsertRow w d)
      from rfl, hih]
    unfold BulkSync.upsertRow
    by_cases hp : BulkSync.phoneIn w.phone d = true
    · rw [if_pos hp]
      dsimp only
      constructor
      · intro hm
        obtain ⟨f0, hf0, heq⟩ := List.mem_map.mp hm
        have hf0p : f0.phone = r.phone := by rw [← heq, BulkSync.applyOne_phone]
        have hfix : BulkSync.applyOne w f0 = f0 := by
          unfold BulkSync.applyOne
          rw [if_neg (by
            rw [hf0p]
            intro hc
            rw [beq_eq_false_iff_ne] at hw
            exact hw ((beq_iff_eq ..).mp hc).symm)]
        rw [← heq, hfix]
        exact hf0
      · intro hm
        refine List.mem_map.mpr ⟨r, hm, ?_⟩
        unfold BulkSync.applyOne
        rw [if_neg (by
          intro hc
          rw [beq_eq_false_iff_ne] at hw
          exact hw ((beq_iff_eq ..).mp hc).symm)]
    · rw [if_neg hp]
      dsimp only
      rw [List.mem_append]
      constructor
      · rintro (h | h)
        · exact h
        · rw [List.mem_singleton] at h
          exfalso
          rw [beq_eq_false_iff_ne] at hw
          exact hw (by rw [h])
      · exact fun h => Or.inl h

/-- Every row of a replayed directory is a fixed point of the pointwise
replay: the batch has already imposed its last payload on it. -/
theorem BulkSync.applyRows_fix (vs : List BulkSync.ValidRow) (d : BulkSync.PDir) :
    ∀ r ∈ (BulkSync.applyRows vs d).rows, BulkSync.applyAll vs r = r := by
  induction vs generalizing d with
  | nil => intro r _; rfl
  | cons v t ih =>
    intro r hr
    have hr' : r ∈ (BulkSync.applyRows t (BulkSync.upsertRow v d)).rows := hr
    show BulkSync.applyAll t (BulkSync.applyOne v r) = r
    by_cases hph : (r.phone == v.phone) = true
    · have hro : BulkSync.applyOne v r = BulkSync.ovw v r := by
        unfold BulkSync.applyOne
        rw [if_pos hph]
      rw [hro]
      have hphone : (BulkSync.ovw v r).phone = r.phone := (eq_of_beq hph).symm
      cases hm : BulkSync.lastMatch t r.phone with
      | some w =>
        have h1 : BulkSync.applyAll t r = BulkSync.ovw w r := by
          rw [BulkSync.applyAll_eq_lastMatch, hm]
        have h2 : BulkSync.applyAll t (BulkSync.ovw v r) = BulkSync.ovw w r := by
          rw [BulkSync.applyAll_eq_lastMatch, hphone, hm]
          exact BulkSync.ovw_ovw w v r
        rw [h2, ← h1]
        exact ih (BulkSync.upsertRow v d) r hr'
      | none =>
        have h2 : BulkSync.applyAll t (BulkSync.ovw v r) = BulkSync.ovw v r := by
          rw [BulkSync.applyAll_eq_lastMatch, hphone, hm]
        rw [h2]

        have hnm : ∀ w ∈ t, (w.phone == r.phone) = false := by
          intro w hwt
          have hnone := List.find?_eq_none.mp hm w (List.mem_reverse.mpr hwt)
          rw [Bool.not_eq_true] at hnone
          exact hnone
        have hmem0 : r ∈ (BulkSync.upsertRow v d).rows :=
          (BulkSync.mem_applyRows_untouched t (BulkSync.upsertRow v d) r hnm).mp hr'
        unfold BulkSync.upsertRow at hmem0
        by_cases hp : BulkSync.phoneIn v.phone d = true
        · rw [if_pos hp] at hmem0
          dsimp only at hmem0
          obtain ⟨f0, hf0, heq⟩ := List.mem_map.mp hmem0
          have hf0p : f0.phone = r.phone := by rw [← heq, BulkSync.applyOne_phone]
          have hcond : (f0.phone == v.phone) = true := by
            rw [beq_iff_eq, hf0p]
            exact eq_of_beq hph
          have hre : r = BulkSync.ovw v f0 := by
            rw [← heq]
            unfold BulkSync.applyOne
            rw [if_pos hcond]
          rw [hre]
          exact BulkSync.ovw_ovw v v f0
        · rw [if_neg hp] at hmem0
          dsimp only at hmem0
          rcases List.mem_append.mp hmem0 with hmm | hmm
          · exfalso
            apply hp
            unfold BulkSync.phoneIn
            rw [List.any_eq_true]
            exact ⟨r, hmm, hph⟩
          · rw [List.mem_singleton] at hmm
            rw [hmm]
            rfl
    · have hro : BulkSync.applyOne v r = r := by
        unfold BulkSync.applyOne
        rw [if_neg hph]
      rw [hro]
      exact ih (BulkSync.upsertRow v d) r hr'

/-- Replaying a batch over its own output changes nothing. -/
theorem BulkSync.applyRows_applyRows (vs : List BulkSync.ValidRow)
    (d : BulkSync.PDir) :
    BulkSync.applyRows vs (BulkSync.applyRows vs d) = BulkSync.applyRows vs d := by
  rw [BulkSync.applyRows_present vs (BulkSync.applyRows vs d)
    (BulkSync.allPresent vs d)]
  rw [BulkSync.map_self _ _ (BulkSync.applyRows_fix vs d)]

/-- When every sheet row is valid, all of them survive validation. -/
theorem BulkSync.validRows_length_of_all (input : List BulkSync.RawRow)
    (h : input.all (fun r => (BulkSync.parseRow r).isSome) = true) :
    (BulkSync.validRows input).length = input.length := by
  unfold BulkSync.validRows
  rw [List.filterMap_length_eq_length]
  intro a ha
  exact List.all_eq_true.mp h a ha

/-- C4 counterexample: a sheet whose single row is missing its phone is
skipped by both runs, so the second run reports `skipped = 1`, not the
`skipped = 0` the claim promises for every input. -/
theorem C4_reconcile_idempotent_counterexample :
    (BulkSync.bulkSync [⟨"Shah", "R Shah", "", some 4⟩]
        (BulkSync.bulkSync [⟨"Shah", "R Shah", "", some 4⟩] ⟨[], 0⟩).2).1.skipped = 1 ∧
    ¬ (BulkSync.bulkSync [⟨"Shah", "R Shah", "", some 4⟩]
        (BulkSync.bulkSync [⟨"Shah", "R Shah", "", some 4⟩] ⟨[], 0⟩).2).1.skipped = 0 := by
  constructor
  · rfl
  · decide

/-- C4 (amended): reconciliation is idempotent on the directory.  For
every input and initial directory, replaying the identical input leaves
the directory exactly as the first run left it — zero additional rows —
and reports the same stats as the first run (`total` = rows seen,
`synced` = valid rows, `skipped` = invalid rows); in particular when
every row is valid the run reports `synced = N, skipped = 0, total = N`.
`skipped = 0` on the second run holds only for fully valid inputs, not
for every input as claimed. -/
theorem C4_reconcile_idempotent (input : List BulkSync.RawRow) (d : BulkSync.PDir) :
    (BulkSync.bulkSync input (BulkSync.bulkSync input d).2).2 =
      (BulkSync.bulkSync input d).2 ∧
    (BulkSync.bulkSync input (BulkSync.bulkSync input d).2).1 =
      (BulkSync.bulkSync input d).1 ∧
    (BulkSync.bulkSync input (BulkSync.bulkSync input d).2).2.rows.length =
      (BulkSync.bulkSync input d).2.rows.length ∧
    (input.all (fun r => (BulkSync.parseRow r).isSome) = true →
      (BulkSync.bulkSync input d).1 = ⟨input.length, input.length, 0, 0⟩) := by
  by_cases h0 : input.length = 0
  · unfold BulkSync.bulkSync
    simp only [if_pos h0]
    refine ⟨trivial, trivial, trivial, ?_⟩
    intro _
    rw [h0]
  · unfold BulkSync.bulkSync
    simp only [if_neg h0]
    refine ⟨?_, trivial, ?_, ?_⟩
    · exact BulkSync.applyRows_applyRows _ d
    · rw [BulkSync.applyRows_applyRows _ d]
    · intro hall
      rw [BulkSync.validRows_length_of_all input hall, Nat.sub_self]

/-- Concrete instance of `C4_reconcile_idempotent`: one valid row into
an empty directory reports total 1, synced 1, skipped 0. -/
theorem C4_reconcile_idempotent_witness :
    (BulkSync.bulkSync [⟨"Shah", "R Shah", "98", some 4⟩] ⟨[], 0⟩).1 =
      ⟨1, 1, 0, 0⟩ :=
  (C4_reconcile_idempotent [⟨"Shah", "R Shah", "98", some 4⟩] ⟨[], 0⟩).2.2.2 (by decide)

/-- The entitlement check of a single servings row, as actions.ts reads
entitlement: `plates_used` at most the `members_count` of the first
family whose id matches (vacuously true when the family is gone). -/
def Plates.servingOkB (families : List Plates.FamilyR) (s : Plates.Serving) : Bool :=
  match families.find? (fun f => f.family_id == s.family_id) with
  | none => true
  | some f => decide (s.plates_used ≤ f.members_count)

/-- The ledger invariant `0 <= used <= entitled` over the plates tables:
the lower bound is the schema check `plates_used >= 0` (a `Nat` here),
the upper bound is `servingOkB` per row. -/
def Plates.ServingInv (db : Plates.DB) : Prop :=
  ∀ s ∈ db.servings, Plates.servingOkB db.families s = true

/-- The ledger invariant over the coupons table: with
used = `total_coupons - remaining_coupons`, the bound `0 <= used`
is `remaining_coupons <= total_coupons` (and `used <= total` is the
`Nat` truncation). -/
def Coupons.EntryInv (cdb : Coupons.CDB) : Prop :=
  ∀ e ∈ cdb.entries, e.remaining_coupons ≤ e.total_coupons

instance (db : Plates.DB) : Decidable (Plates.ServingInv db) := by
  unfold Plates.ServingInv
  infer_instance

instance (cdb : Coupons.CDB) : Decidable (Coupons.EntryInv cdb) := by
  unfold Coupons.EntryInv
  infer_instance

/-- `checkInFamily` preserves the ledger invariant: a created row has
`plates_used = 0` and an updated row only gains its timestamp. -/
theorem Plates.checkInFamily_preserves_inv (role : Plates.UserRole)
    (eventName familyId : String) (stationId : Option String) (now : Nat)
    (auditOk : Bool) (db : Plates.DB) (hinv : Plates.ServingInv db) :
    Plates.ServingInv
      (Plates.checkInFamily role eventName familyId stationId now auditOk db).2 := by
  unfold Plates.checkInFamily
  cases hf : Plates.findFamily db familyId with
  | none => exact hinv
  | some family =>
    cases hs : Plates.findServing db eventName familyId with
    | some existing =>
      dsimp only
      by_cases hchk : existing.checked_in_at.isSome = true
      · rw [if_pos hchk]
        exact hinv
      · rw [if_neg hchk]
        unfold Plates.ServingInv
        rw [Plates.logAudit_servings, Plates.logAudit_families]
        dsimp only
        intro s' hmem
        obtain ⟨s, hsm, rfl⟩ := List.mem_map.mp hmem
        have hok := hinv s hsm
        by_cases hid : (s.id == existing.id) = true
        · rw [if_pos hid]
          exact hok
        · rw [if_neg hid]
          exact hok
    | none =>
      dsimp only
      unfold Plates.ServingInv
      rw [Plates.logAudit_servings, Plates.logAudit_families]
      dsimp only
      intro s' hmem
      rcases List.mem_append.mp hmem with h | h
      · exact hinv s' h
      · rw [List.mem_singleton] at h
        subst h
        unfold Plates.servingOkB
        cases db.families.find? (fun f => f.family_id == familyId) with
        | none => rfl
        | some f => simp

/-- `servePlates` preserves the ledger invariant: the guard rejects any
quantity beyond the remaining entitlement before the write. -/
theorem Plates.servePlates_preserves_inv (role : Plates.UserRole)
    (eventName familyId : String) (quantity : ℚ) (stationId : Option String)
    (now : Nat) (auditOk : Bool) (db : Plates.DB)
    (hnodup : (db.servings.map (fun s => s.id)).Nodup)
    (hinv : Plates.ServingInv db) :
    Plates.ServingInv
      (Plates.servePlates role eventName familyId quantity stationId now auditOk db).2 := by
  unfold Plates.servePlates Plates.servePlatesRW
  dsimp only
  by_cases hq : (Rat.floor quantity).toNat = 0
  · rw [if_pos hq]
    exact hinv
  rw [if_neg hq]
  cases hf : Plates.findFamily db familyId with
  | none => exact hinv
  | some family =>
    cases hs : Plates.findServing db eventName familyId with
    | none => exact hinv
    | some serving =>
      dsimp only
      by_cases hchk : serving.checked_in_at.isNone = true
      · rw [if_pos hchk]
        exact hinv
      rw [if_neg hchk]
      by_cases hg : ((Rat.floor quantity).toNat : Int) >
          (family.members_count : Int) - (serving.plates_used : Int)
      · rw [if_pos hg]
        exact hinv
      rw [if_neg hg]
      cases hcas : db.servings.find?
          (fun s => s.id == serving.id && s.plates_used == serving.plates_used) with
      | none => exact hinv
      | some w =>
        dsimp only
        unfold Plates.ServingInv
        rw [Plates.logAudit_servings, Plates.logAudit_families]
        dsimp only
        intro s' hmem
        obtain ⟨s, hsm, rfl⟩ := List.mem_map.mp hmem
        have hok := hinv s hsm
        by_cases hcond : (s.id == serving.id && s.plates_used == serving.plates_used) = true
        · rw [if_pos hcond]
          have hsmem : serving ∈ db.servings := List.mem_of_find?_eq_some hs
          have hids : s.id = serving.id := by
            have := hcond
            simp only [Bool.and_eq_true, beq_iff_eq] at this
            exact this.1
          have hseq : s = serving :=
            List.inj_on_of_nodup_map hnodup hsm hsmem hids
          subst hseq
          have hfid : s.family_id = familyId := by
            have := List.find?_some (hs :
              db.servings.find?
                (fun x => x.event_name == eventName && x.family_id == familyId) =
                some s)
            simp only [Bool.and_eq_true, beq_iff_eq] at this
            exact this.2
          have hf' : db.families.find? (fun f => f.family_id == familyId) = some family :=
            hf
          unfold Plates.servingOkB
          dsimp only
          rw [hfid, hf']
          rw [decide_eq_true_iff]
          omega
        · rw [if_neg hcond]
          exact hok

/-- `adjustPlates` with a non-positive delta preserves the ledger
invariant: the clamped result never exceeds the previous value. -/
theorem Plates.adjustPlates_nonpos_preserves_inv (role : Plates.UserRole)
    (eventName familyId : String) (adjustment : Int) (reason : String)
    (stationId : Option String) (now : Nat) (auditOk : Bool) (db : Plates.DB)
    (hadj : adjustment ≤ 0)
    (hnodup : (db.servings.map (fun s => s.id)).Nodup)
    (hinv : Plates.ServingInv db) :
    Plates.ServingInv
      (Plates.adjustPlates role eventName familyId adjustment reason stationId now
        auditOk db).2 := by
  unfold Plates.adjustPlates
  by_cases hrole : role ≠ Plates.UserRole.admin
  · rw [if_pos hrole]
    exact hinv
  rw [if_neg hrole]
  cases hs : Plates.findServing db eventName familyId with
  | none => exact hinv
  | some serving =>
    dsimp only
    unfold Plates.ServingInv
    rw [Plates.logAudit_servings, Plates.logAudit_families]
    dsimp only
    intro s' hmem
    obtain ⟨s, hsm, rfl⟩ := List.mem_map.mp hmem
    have hok := hinv s hsm
    by_cases hcond : (s.id == serving.id) = true
    · rw [if_pos hcond]
      have hsmem : serving ∈ db.servings := List.mem_of_find?_eq_some hs
      have hseq : s = serving :=
        List.inj_on_of_nodup_map hnodup hsm hsmem (by simpa using hcond)
      subst hseq
      have hle : ((s.plates_used : Int) + adjustment).toNat ≤ s.plates_used := by
        omega
      unfold Plates.servingOkB at hok ⊢
      dsimp only
      cases hfind : db.families.find? (fun f => f.family_id == s.family_id) with
      | none => rfl
      | some f =>
        rw [hfind] at hok
        rw [decide_eq_true_iff] at hok ⊢
        omega
    · rw [if_neg hcond]
      exact hok

/-- `consumeCoupons` preserves the coupons invariant: the guarded write
only lowers `remaining_coupons`. -/
theorem Coupons.consumeCoupons_preserves_inv (role : Plates.UserRole)
    (entryId : Nat) (quantity : Int) (auditOk : Bool) (cdb : Coupons.CDB)
    (hinv : Coupons.EntryInv cdb) :
    Coupons.EntryInv (Coupons.consumeCoupons role entryId quantity auditOk cdb).2 := by
  unfold Coupons.consumeCoupons Coupons.consumeCouponsRW
  cases hf : cdb.entries.find? (fun e => e.id == entryId) with
  | none => exact hinv
  | some current =>
    dsimp only
    by_cases hcl : current.status = Coupons.EntryStatus.CLOSED
    · rw [if_pos hcl]
      exact hinv
    rw [if_neg hcl]
    by_cases hlt : current.remaining_coupons < quantity.toNat
    · rw [if_pos hlt]
      exact hinv
    rw [if_neg hlt]
    cases hcas : cdb.entries.find?
        (fun e => e.id == entryId && e.remaining_coupons == current.remaining_coupons) with
    | none => exact hinv
    | some w =>
      dsimp only
      unfold Coupons.EntryInv
      rw [Coupons.clogAudit_entries]
      dsimp only
      intro e' hmem
      obtain ⟨e, hem, rfl⟩ := List.mem_map.mp hmem
      have hok := hinv e hem
      by_cases hcond : (e.id == entryId && e.remaining_coupons == current.remaining_coupons)
          = true
      · rw [if_pos hcond]
        have hrem : e.remaining_coupons = current.remaining_coupons := by
          have := hcond
          simp only [Bool.and_eq_true, beq_iff_eq] at this
          exact this.2
        dsimp only
        omega
      · rw [if_neg hcond]
        exact hok

/-- `adjustCoupons` preserves the coupons invariant: both counters are
shifted by the same delta and clamped at zero, and clamping is
monotone. -/
theorem Coupons.adjustCoupons_preserves_inv (role : Plates.UserRole)
    (entryId : Nat) (adjustment : Int) (details : String) (auditOk : Bool)
    (cdb : Coupons.CDB) (hinv : Coupons.EntryInv cdb) :
    Coupons.EntryInv
      (Coupons.adjustCoupons role entryId adjustment details auditOk cdb).2 := by
  unfold Coupons.adjustCoupons
  by_cases hrole : role ≠ Plates.UserRole.admin
  · rw [if_pos hrole]
    exact hinv
  rw [if_neg hrole]
  cases hf : cdb.entries.find? (fun e => e.id == entryId) with
  | none => exact hinv
  | some current =>
    dsimp only
    unfold Coupons.EntryInv
    rw [Coupons.clogAudit_entries]
    dsimp only
    intro e' hmem
    obtain ⟨e, hem, rfl⟩ := List.mem_map.mp hmem
    have hok := hinv e hem
    have hcur : current ∈ cdb.entries := List.mem_of_find?_eq_some hf
    have hcok := hinv current hcur
    by_cases hcond : (e.id == entryId) = true
    · rw [if_pos hcond]
      dsimp only
      exact Int.toNat_le_toNat (by omega)
    · rw [if_neg hcond]
      exact hok

/-- `updateEntryStatus` preserves the coupons invariant: only the
status column is written. -/
theorem Coupons.updateEntryStatus_preserves_inv (role : Plates.UserRole)
    (entryId : Nat) (newStatus : Coupons.NewStatus) (auditOk : Bool)
    (cdb : Coupons.CDB) (hinv : Coupons.EntryInv cdb) :
    Coupons.EntryInv
      (Coupons.updateEntryStatus role entryId newStatus auditOk cdb).2 := by
  unfold Coupons.updateEntryStatus
  by_cases hrole : role ≠ Plates.UserRole.admin
  · rw [if_pos hrole]
    exact hinv
  rw [if_neg hrole]
  cases hf : cdb.entries.find? (fun e => e.id == entryId) with
  | none => exact hinv
  | some current =>
    dsimp only
    unfold Coupons.EntryInv
    rw [Coupons.clogAudit_entries]
    dsimp only
    intro e' hmem
    obtain ⟨e, hem, rfl⟩ := List.mem_map.mp hmem
    have hok := hinv e hem
    by_cases hcond : (e.id == entryId) = true
    · rw [if_pos hcond]
      exact hok
    · rw [if_neg hcond]
      exact hok

/-- C1 counterexample: a family of four with zero plates used satisfies
the invariant, yet an admin `adjustPlates` with delta +5 drives
`plates_used` to five, above `plates_entitled = 4` — the code caps the
adjustment only from below (`Math.max(0, _)`), never against the
entitlement. -/
theorem C1_entitlement_invariant_counterexample :
    Plates.ServingInv
      ⟨[⟨"F1", "Shah", "R Shah", "98", 4, none⟩],
        [⟨0, "E", "F1", 0, some 1, 1⟩], [], 1⟩ ∧
    ¬ Plates.ServingInv
      (Plates.adjustPlates .admin "E" "F1" 5 "extra" none 2 true
        ⟨[⟨"F1", "Shah", "R Shah", "98", 4, none⟩],
          [⟨0, "E", "F1", 0, some 1, 1⟩], [], 1⟩).2 := by
  constructor
  · decide
  · decide

/-- C1 (amended): with unique row ids, the bound `0 <= used <= entitled`
is preserved by `checkInFamily`, `servePlates`, `consumeCoupons`,
`adjustCoupons` and `updateEntryStatus`, and by `adjustPlates` when the
delta is non-positive; an admin `adjustPlates` with a positive delta is
clamped only from below and can push `plates_used` above
`plates_entitled` (see the counterexample). -/
theorem C1_entitlement_invariant :
    (∀ (role : Plates.UserRole) (eventName familyId : String)
        (stationId : Option String) (now : Nat) (auditOk : Bool) (db : Plates.DB),
      Plates.ServingInv db →
      Plates.ServingInv
        (Plates.checkInFamily role eventName familyId stationId now auditOk db).2) ∧
    (∀ (role : Plates.UserRole) (eventName familyId : String) (quantity : ℚ)
        (stationId : Option String) (now : Nat) (auditOk : Bool) (db : Plates.DB),
      (db.servings.map (fun s => s.id)).Nodup →
      Plates.ServingInv db →
      Plates.ServingInv
        (Plates.servePlates role eventName familyId quantity stationId now auditOk
          db).2) ∧
    (∀ (role : Plates.UserRole) (eventName familyId : String) (adjustment : Int)
        (reason : String) (stationId : Option String) (now : Nat) (auditOk : Bool)
        (db : Plates.DB),
      adjustment ≤ 0 →
      (db.servings.map (fun s => s.id)).Nodup →
      Plates.ServingInv db →
      Plates.ServingInv
        (Plates.adjustPlates role eventName familyId adjustment reason stationId now
          auditOk db).2) ∧
    (∀ (role : Plates.UserRole) (entryId : Nat) (quantity : Int) (auditOk : Bool)
        (cdb : Coupons.CDB),
      Coupons.EntryInv cdb →
      Coupons.EntryInv (Coupons.consumeCoupons role entryId quantity auditOk cdb).2) ∧
    (∀ (role : Plates.UserRole) (entryId : Nat) (adjustment : Int) (details : String)
        (auditOk : Bool) (cdb : Coupons.CDB),
      Coupons.EntryInv cdb →
      Coupons.EntryInv
        (Coupons.adjustCoupons role entryId adjustment details auditOk cdb).2) ∧
    (∀ (role : Plates.UserRole) (entryId : Nat) (newStatus : Coupons.NewStatus)
        (auditOk : Bool) (cdb : Coupons.CDB),
      Coupons.EntryInv cdb →
      Coupons.EntryInv
        (Coupons.updateEntryStatus role entryId newStatus auditOk cdb).2) :=
  ⟨fun role ev fid st now ok db hinv =>
      Plates.checkInFamily_preserves_inv role ev fid st now ok db hinv,
    fun role ev fid q st now ok db hnd hinv =>
      Plates.servePlates_preserves_inv role ev fid q st now ok db hnd hinv,
    fun role ev fid adj r st now ok db hadj hnd hinv =>
      Plates.adjustPlates_nonpos_preserves_inv role ev fid adj r st now ok db hadj hnd
        hinv,
    fun role id q ok cdb hinv =>
      Coupons.consumeCoupons_preserves_inv role id q ok cdb hinv,
    fun role id adj d ok cdb hinv =>
      Coupons.adjustCoupons_preserves_inv role id adj d ok cdb hinv,
    fun role id ns ok cdb hinv =>
      Coupons.updateEntryStatus_preserves_inv role id ns ok cdb hinv⟩

/-- Concrete instance of `C1_entitlement_invariant`: serving two plates
to a family of four keeps the invariant. -/
theorem C1_entitlement_invariant_witness :
    Plates.ServingInv
      (Plates.servePlates .volunteer "E" "F1" (2 : ℚ) none 2 true
        ⟨[⟨"F1", "Shah", "R Shah", "98", 4, none⟩],
          [⟨0, "E", "F1", 0, some 1, 1⟩], [], 1⟩).2 :=
  C1_entitlement_invariant.2.1 .volunteer "E" "F1" (2 : ℚ) none 2 true
    ⟨[⟨"F1", "Shah", "R Shah", "98", 4, none⟩],
      [⟨0, "E", "F1", 0, some 1, 1⟩], [], 1⟩
    (by decide) (by decide)

/-- C3 counterexample: a directory with one family, one serving row and
one audit row referencing it.  A successful sync run deletes the
serving row (the family delete cascades) and nulls the family
reference of the audit row, so neither survives unchanged as the claim states. -/
theorem C3_sync_frame_counterexample :
    (Plates.syncPOST [⟨"F2", "Patel", "P Patel", "97", 3, none⟩] [] none
        ⟨[⟨"F1", "Shah", "R Shah", "98", 4, none⟩],
          [⟨0, "E", "F1", 2, some 5, 5⟩],
          [⟨"admin", "E", some "F1", "SERVE", none, none, "d", none⟩], 1⟩).2.servings
      = [] ∧
    ((Plates.syncPOST [⟨"F2", "Patel", "P Patel", "97", 3, none⟩] [] none
        ⟨[⟨"F1", "Shah", "R Shah", "98", 4, none⟩],
          [⟨0, "E", "F1", 2, some 5, 5⟩],
          [⟨"admin", "E", some "F1", "SERVE", none, none, "d", none⟩], 1⟩).2.audit_logs.head?).map
        (fun a => a.family_id) = some none := by
  constructor
  · rfl
  · rfl

/-- C3 (amended): a successful sync run (non-empty fetched batch, no
duplicate ids) wholesale-replaces the families table; the cascade
removes every servings row whose family was deleted — in particular no
serving row of a deleted family survives — while audit rows are never
deleted: every pre-existing audit row survives with only its family
reference nulled when it pointed at a deleted family, and exactly one
SYNC summary entry is appended. -/
theorem C3_sync_frame (input : List Plates.SheetFam) (sheetErrors : List String)
    (stationId : Option String) (db : Plates.DB)
    (hne : input ≠ []) (hdup : Plates.hasDuplicateIds input = false) :
    (Plates.syncPOST input sheetErrors stationId db).1 = .ok input.length ∧
    (Plates.syncPOST input sheetErrors stationId db).2.families =
      db.families.filter (fun f => f.family_id == "") ++
        input.map Plates.SheetFam.toFamily ∧
    (Plates.syncPOST input sheetErrors stationId db).2.servings =
      db.servings.filter
        (fun s => !((Plates.deletedFamilyIds db).contains s.family_id)) ∧
    (∀ s ∈ db.servings, ∀ f ∈ db.families, f.family_id = s.family_id →
      ¬ f.family_id = "" →
      s ∉ (Plates.syncPOST input sheetErrors stationId db).2.servings) ∧
    (∃ e, (Plates.syncPOST input sheetErrors stationId db).2.audit_logs =
      db.audit_logs.map (Plates.nullifyDeleted (Plates.deletedFamilyIds db)) ++ [e] ∧
      e.action_type = "SYNC") := by
  have hlen : ¬ input.length = 0 := by
    simpa [List.length_eq_zero] using hne
  have h1 : ¬ (sheetErrors.length > 0 ∧ input.length = 0) := fun h => hlen h.2
  have h3 : ¬ (Plates.hasDuplicateIds input = true) := by
    rw [hdup]
    exact Bool.false_ne_true
  unfold Plates.syncPOST
  rw [if_neg h1, if_neg hlen, if_neg h3]
  refine ⟨rfl, rfl, rfl, ?_, _, rfl, rfl⟩
  intro s hs f hf hid hne'
  intro hmem
  simp only [List.mem_filter, Bool.not_eq_eq_eq_not, Bool.not_true,
    List.contains_eq_any_beq, List.any_eq_false] at hmem
  refine hmem.2 s.family_id ?_ (by simp)
  unfold Plates.deletedFamilyIds
  rw [List.mem_map]
  refine ⟨f, ?_, hid⟩
  rw [List.mem_filter]
  exact ⟨hf, by simp [hne']⟩

/-- Concrete instance of `C3_sync_frame`: syncing one fetched family
into a one-family directory succeeds and appends the SYNC entry. -/
theorem C3_sync_frame_witness :
    (Plates.syncPOST [⟨"F2", "Patel", "P Patel", "97", 3, none⟩] [] none
        ⟨[⟨"F1", "Shah", "R Shah", "98", 4, none⟩],
          [⟨0, "E", "F1", 2, some 5, 5⟩], [], 1⟩).1 = .ok 1 :=
  (C3_sync_frame [⟨"F2", "Patel", "P Patel", "97", 3, none⟩] [] none
    ⟨[⟨"F1", "Shah", "R Shah", "98", 4, none⟩],
      [⟨0, "E", "F1", 2, some 5, 5⟩], [], 1⟩
    (by decide) (by decide)).1

/-- C8: audit entries certify committed mutations.  For `checkInFamily`,
`servePlates` and `adjustPlates`, every rejected execution (validation
failure, not-found, ALREADY_CHECKED_IN, INSUFFICIENT_PLATES or
CONCURRENCY) leaves the whole state — audit log included — exactly as it
was, and every successful execution produces the post-mutation state
with exactly one audit entry of the operation kind appended after it;
`resetEvent` always commits the deletion and appends its single RESET
entry. -/
theorem C8_audit_follows_commit (role : Plates.UserRole) (eventName familyId : String)
    (q : ℚ) (adjustment : Int) (reason : String) (stationId : Option String)
    (now : Nat) (db : Plates.DB) :
    (((Plates.checkInFamily role eventName familyId stationId now true db).1.success =
        false →
      (Plates.checkInFamily role eventName familyId stationId now true db).2 = db) ∧
     ((Plates.checkInFamily role eventName familyId stationId now true db).1.success =
        true →
      ∃ e, (Plates.checkInFamily role eventName familyId stationId now true db).2.audit_logs =
        db.audit_logs ++ [e] ∧ e.action_type = "CHECK_IN")) ∧
    (((Plates.servePlates role eventName familyId q stationId now true db).1.success =
        false →
      (Plates.servePlates role eventName familyId q stationId now true db).2 = db) ∧
     ((Plates.servePlates role eventName familyId q stationId now true db).1.success =
        true →
      ∃ e, (Plates.servePlates role eventName familyId q stationId now true db).2.audit_logs =
        db.audit_logs ++ [e] ∧ e.action_type = "SERVE")) ∧
    (((Plates.adjustPlates role eventName familyId adjustment reason stationId now true
        db).1.success = false →
      (Plates.adjustPlates role eventName familyId adjustment reason stationId now true
        db).2 = db) ∧
     ((Plates.adjustPlates role eventName familyId adjustment reason stationId now true
        db).1.success = true →
      ∃ e, (Plates.adjustPlates role eventName familyId adjustment reason stationId now
          true db).2.audit_logs = db.audit_logs ++ [e] ∧ e.action_type = "ADJUST")) ∧
    ((Plates.resetEvent eventName stationId true db).1.success = true ∧
      ∃ e, (Plates.resetEvent eventName stationId true db).2.audit_logs =
          db.audit_logs ++ [e] ∧ e.action_type = "RESET" ∧
        (Plates.resetEvent eventName stationId true db).2.servings =
          db.servings.filter (fun s => !(s.event_name == eventName))) := by
  refine ⟨?_, ?_, ?_, ?_⟩
  · unfold Plates.checkInFamily Plates.logAudit
    repeat' first
    | exact ⟨fun h => rfl, fun h => absurd h (by decide)⟩
    | exact ⟨fun h => absurd h (by decide), fun h => ⟨_, rfl, rfl⟩⟩
    | exact absurd rfl (by assumption)
    | split
    | dsimp only
  · unfold Plates.servePlates Plates.servePlatesRW Plates.logAudit
    repeat' first
    | exact ⟨fun h => rfl, fun h => absurd h (by decide)⟩
    | exact ⟨fun h => absurd h (by decide), fun h => ⟨_, rfl, rfl⟩⟩
    | exact absurd rfl (by assumption)
    | split
    | dsimp only
  · unfold Plates.adjustPlates Plates.logAudit
    repeat' first
    | exact ⟨fun h => rfl, fun h => absurd h (by decide)⟩
    | exact ⟨fun h => absurd h (by decide), fun h => ⟨_, rfl, rfl⟩⟩
    | exact absurd rfl (by assumption)
    | split
    | dsimp only
  · exact ⟨rfl, _, rfl, rfl, rfl⟩

/-- Concrete instance of `C8_audit_follows_commit`: a successful serve
of two plates appends exactly one SERVE audit entry. -/
theorem C8_audit_follows_commit_witness :
    ∃ e, (Plates.servePlates .volunteer "E" "F001" (2 : ℚ) none 9 true
        ⟨[⟨"F001", "Shah", "R Shah", "98", 4, none⟩],
          [⟨0, "E", "F001", 0, some 5, 5⟩], [], 1⟩).2.audit_logs =
      ([] : List Plates.AuditLog) ++ [e] ∧ e.action_type = "SERVE" :=
  (C8_audit_follows_commit .volunteer "E" "F001" (2 : ℚ) 0 "r" none 9
    ⟨[⟨"F001", "Shah", "R Shah", "98", 4, none⟩],
      [⟨0, "E", "F001", 0, some 5, 5⟩], [], 1⟩).2.1.2 (by decide)

/-- C9: a failing audit insert is swallowed.  For `checkInFamily`,
`servePlates` and `adjustPlates` (and the coupons `consumeCoupons`), a
run whose audit insert fails returns exactly the result of a run whose
audit insert succeeds — success included — and leaves exactly the same
state apart from the missing audit row; so a committed state change can
exist with no corresponding audit record. -/
theorem C9_audit_insert_failure_swallowed (role : Plates.UserRole)
    (eventName familyId : String) (quantity : ℚ) (adjustment : Int) (reason : String)
    (stationId : Option String) (now : Nat) (db : Plates.DB)
    (entryId : Nat) (cquantity : Int) (cdb : Coupons.CDB) :
    ((Plates.checkInFamily role eventName familyId stationId now false db).1 =
        (Plates.checkInFamily role eventName familyId stationId now true db).1 ∧
      (Plates.checkInFamily role eventName familyId stationId now false db).2 =
        { (Plates.checkInFamily role eventName familyId stationId now true db).2 with
          audit_logs := db.audit_logs }) ∧
    ((Plates.servePlates role eventName familyId quantity stationId now false db).1 =
        (Plates.servePlates role eventName familyId quantity stationId now true db).1 ∧
      (Plates.servePlates role eventName familyId quantity stationId now false db).2 =
        { (Plates.servePlates role eventName familyId quantity stationId now true db).2 with
          audit_logs := db.audit_logs }) ∧
    ((Plates.adjustPlates role eventName familyId adjustment reason stationId now false db).1 =
        (Plates.adjustPlates role eventName familyId adjustment reason stationId now true db).1 ∧
      (Plates.adjustPlates role eventName familyId adjustment reason stationId now false db).2 =
        { (Plates.adjustPlates role eventName familyId adjustment reason stationId now true db).2 with
          audit_logs := db.audit_logs }) ∧
    ((Coupons.consumeCoupons role entryId cquantity false cdb).1 =
        (Coupons.consumeCoupons role entryId cquantity true cdb).1 ∧
      (Coupons.consumeCoupons role entryId cquantity false cdb).2 =
        { (Coupons.consumeCoupons role entryId cquantity true cdb).2 with
          audit_logs := cdb.audit_logs }) := by
  refine ⟨?_, ?_, ?_, ?_⟩
  · unfold Plates.checkInFamily Plates.logAudit
    repeat' first
    | exact ⟨rfl, rfl⟩
    | rfl
    | exact absurd ‹false = true› Bool.false_ne_true
    | split
    | dsimp only
  · unfold Plates.servePlates Plates.servePlatesRW Plates.logAudit
    repeat' first
    | exact ⟨rfl, rfl⟩
    | rfl
    | exact absurd ‹false = true› Bool.false_ne_true
    | split
    | dsimp only
  · unfold Plates.adjustPlates Plates.logAudit
    repeat' first
    | exact ⟨rfl, rfl⟩
    | rfl
    | exact absurd ‹false = true› Bool.false_ne_true
    | split
    | dsimp only
  · unfold Coupons.consumeCoupons Coupons.consumeCouponsRW Coupons.clogAudit
    repeat' first
    | exact ⟨rfl, rfl⟩
    | rfl
    | exact absurd ‹false = true› Bool.false_ne_true
    | split
    | dsimp only

